import Mathlib

/-!
Shallow embedding of the `binarygcode` Rust crate (bgcode container codec).

Bytes are modelled as `Nat` values `< 256`, byte buffers as `List Nat`.
Machine integers (`u16`, `u32`, `usize`) are `Nat`s; wrap-around casts are
written with explicit `% 2 ^ w` where the source performs an `as` cast.

The embedding follows the files that `lib.rs` compiles into the crate:
`components/common.rs`, `components/serialiser.rs` and the streaming
deserialiser (`deserialiser.rs`).  The external collaborators
(`miniz_oxide` zlib, `embedded_heatshrink`) are out of scope of the source
and are modelled as abstract parameters, exactly at the call sites where
the source invokes them.
-/

namespace BinaryGcode

/-! ### components/common.rs : constants and enums -/

/-- `MAGIC`: the `"GCDE"` constant as little-endian u32 (components/common.rs). -/
def MAGIC : Nat := 1162101575

/-- `BinaryGcodeError` (components/common.rs).  Payload-free where the
deserialiser constructs the variant without a payload. -/
inductive BinaryGcodeError
  | tryFromSliceError
  | invalidMagic
  | invalidChecksumType (v : Nat)
  | invalidChecksum (expected got : Nat)
  | unsupportedBlockKind (v : Nat)
  | unsupportedEncoding (v : Nat)
  | unsupportedCompressionAlgorithm (v : Nat)
  | encodingError (v : Nat)
  | meatpack
  | serialiseError (s : String)
  deriving DecidableEq, Repr

/-- `Checksum` (components/common.rs). -/
inductive Checksum
  | none
  | crc32
  deriving DecidableEq, Repr

/-- `BlockKind` (components/common.rs). -/
inductive BlockKind
  | fileMetadata
  | gcode
  | slicerMetadata
  | printerMetadata
  | printMetadata
  | thumbnail
  deriving DecidableEq, Repr

/-- `CompressionAlgorithm` (components/common.rs). -/
inductive CompressionAlgorithm
  | none
  | deflate
  | heatshrink11_4
  | heatshrink12_4
  deriving DecidableEq, Repr

/-- `Encoding` (components/common.rs). -/
inductive Encoding
  | ini
  | ascii
  | meatpack
  | meatpackWithComments
  | png
  | jpg
  | qoi
  deriving DecidableEq, Repr

/-! ### Little-endian scalar codecs

Rust's `uN::to_le_bytes` / `uN::from_le_bytes`. -/

/-- `u16::to_le_bytes` of a value (the `% 256` limbs model the machine width). -/
def u16toLe (v : Nat) : List Nat := [v % 256, v / 256 % 256]

/-- `u32::to_le_bytes`. -/
def u32toLe (v : Nat) : List Nat :=
  [v % 256, v / 256 % 256, v / 256 ^ 2 % 256, v / 256 ^ 3 % 256]

/-- `uN::from_le_bytes`: little-endian value of a byte list. -/
def leNat (l : List Nat) : Nat := l.foldr (fun b acc => b + 256 * acc) 0

/-- Rust slice expression `buf[a..b]` (half-open range) on a byte buffer. -/
def slice (l : List Nat) (a b : Nat) : List Nat := (l.drop a).take (b - a)

/-- `try_from_slice::<N>` (deserialiser.rs): checks the slice has exactly `n`
elements. -/
def try_from_slice (n : Nat) (buf : List Nat) : Except BinaryGcodeError (List Nat) :=
  if buf.length = n then .ok buf else .error .tryFromSliceError

/-! ### Enum byte codecs (components/common.rs) -/

/-- `Checksum::to_le_bytes`.  The source writes `0u16.to_be_bytes()` for
`None`, which is the same two zero bytes as little-endian. -/
def Checksum.to_le_bytes : Checksum → List Nat
  | .none => [0, 0]
  | .crc32 => u16toLe 1

/-- `Checksum::checksum_byte_size`. -/
def Checksum.checksum_byte_size : Checksum → Nat
  | .none => 0
  | .crc32 => 4

/-- `Encoding::to_le_bytes`. -/
def Encoding.to_le_bytes : Encoding → List Nat
  | .ini => u16toLe 0
  | .ascii => u16toLe 0
  | .meatpack => u16toLe 1
  | .meatpackWithComments => u16toLe 2
  | .png => u16toLe 0
  | .jpg => u16toLe 1
  | .qoi => u16toLe 2

/-- `Encoding::from_le_bytes`: validates the `(kind, encoding)` pair. -/
def Encoding.from_le_bytes (bytes : List Nat) (kind : BlockKind) :
    Except BinaryGcodeError Encoding :=
  let encoding := leNat bytes
  match kind, encoding with
  | .fileMetadata, 0 => .ok .ini
  | .slicerMetadata, 0 => .ok .ini
  | .printMetadata, 0 => .ok .ini
  | .printerMetadata, 0 => .ok .ini
  | .gcode, 0 => .ok .ascii
  | .gcode, 1 => .ok .meatpack
  | .gcode, 2 => .ok .meatpackWithComments
  | .thumbnail, 0 => .ok .png
  | .thumbnail, 1 => .ok .jpg
  | .thumbnail, 2 => .ok .qoi
  | _, _ => .error (.unsupportedEncoding encoding)

/-- `BlockKind::new`. -/
def BlockKind.new (value : Nat) : Except BinaryGcodeError BlockKind :=
  match value with
  | 0 => .ok .fileMetadata
  | 1 => .ok .gcode
  | 2 => .ok .slicerMetadata
  | 3 => .ok .printerMetadata
  | 4 => .ok .printMetadata
  | 5 => .ok .thumbnail
  | v => .error (.unsupportedBlockKind v)

/-- `BlockKind::to_le_bytes` (components/common.rs; all arms little-endian). -/
def BlockKind.to_le_bytes : BlockKind → List Nat
  | .fileMetadata => u16toLe 0
  | .gcode => u16toLe 1
  | .slicerMetadata => u16toLe 2
  | .printerMetadata => u16toLe 3
  | .printMetadata => u16toLe 4
  | .thumbnail => u16toLe 5

/-- `BlockKind::from_le_bytes`. -/
def BlockKind.from_le_bytes (bytes : List Nat) : Except BinaryGcodeError BlockKind :=
  BlockKind.new (leNat bytes)

/-- `BlockKind::parameter_byte_size`. -/
def BlockKind.parameter_byte_size : BlockKind → Nat
  | .thumbnail => 6
  | _ => 2

/-- `CompressionAlgorithm::new`. -/
def CompressionAlgorithm.new (value : Nat) : Except BinaryGcodeError CompressionAlgorithm :=
  match value with
  | 0 => .ok .none
  | 1 => .ok .deflate
  | 2 => .ok .heatshrink11_4
  | 3 => .ok .heatshrink12_4
  | v => .error (.unsupportedCompressionAlgorithm v)

/-- `CompressionAlgorithm::to_le_bytes`. -/
def CompressionAlgorithm.to_le_bytes : CompressionAlgorithm → List Nat
  | .none => u16toLe 0
  | .deflate => u16toLe 1
  | .heatshrink11_4 => u16toLe 2
  | .heatshrink12_4 => u16toLe 3

/-- `CompressionAlgorithm::from_le_bytes`. -/
def CompressionAlgorithm.from_le_bytes (bytes : List Nat) :
    Except BinaryGcodeError CompressionAlgorithm :=
  CompressionAlgorithm.new (leNat bytes)

/-! ### CRC32 (components/common.rs) -/

/-- `CRC32_TABLE` (components/common.rs): the 256-entry lookup table. -/
def CRC32_TABLE : List Nat := [
  0x00000000, 0x77073096, 0xee0e612c, 0x990951ba, 0x076dc419, 0x706af48f,
  0xe963a535, 0x9e6495a3, 0x0edb8832, 0x79dcb8a4, 0xe0d5e91e, 0x97d2d988,
  0x09b64c2b, 0x7eb17cbd, 0xe7b82d07, 0x90bf1d91, 0x1db71064, 0x6ab020f2,
  0xf3b97148, 0x84be41de, 0x1adad47d, 0x6ddde4eb, 0xf4d4b551, 0x83d385c7,
  0x136c9856, 0x646ba8c0, 0xfd62f97a, 0x8a65c9ec, 0x14015c4f, 0x63066cd9,
  0xfa0f3d63, 0x8d080df5, 0x3b6e20c8, 0x4c69105e, 0xd56041e4, 0xa2677172,
  0x3c03e4d1, 0x4b04d447, 0xd20d85fd, 0xa50ab56b, 0x35b5a8fa, 0x42b2986c,
  0xdbbbc9d6, 0xacbcf940, 0x32d86ce3, 0x45df5c75, 0xdcd60dcf, 0xabd13d59,
  0x26d930ac, 0x51de003a, 0xc8d75180, 0xbfd06116, 0x21b4f4b5, 0x56b3c423,
  0xcfba9599, 0xb8bda50f, 0x2802b89e, 0x5f058808, 0xc60cd9b2, 0xb10be924,
  0x2f6f7c87, 0x58684c11, 0xc1611dab, 0xb6662d3d, 0x76dc4190, 0x01db7106,
  0x98d220bc, 0xefd5102a, 0x71b18589, 0x06b6b51f, 0x9fbfe4a5, 0xe8b8d433,
  0x7807c9a2, 0x0f00f934, 0x9609a88e, 0xe10e9818, 0x7f6a0dbb, 0x086d3d2d,
  0x91646c97, 0xe6635c01, 0x6b6b51f4, 0x1c6c6162, 0x856530d8, 0xf262004e,
  0x6c0695ed, 0x1b01a57b, 0x8208f4c1, 0xf50fc457, 0x65b0d9c6, 0x12b7e950,
  0x8bbeb8ea, 0xfcb9887c, 0x62dd1ddf, 0x15da2d49, 0x8cd37cf3, 0xfbd44c65,
  0x4db26158, 0x3ab551ce, 0xa3bc0074, 0xd4bb30e2, 0x4adfa541, 0x3dd895d7,
  0xa4d1c46d, 0xd3d6f4fb, 0x4369e96a, 0x346ed9fc, 0xad678846, 0xda60b8d0,
  0x44042d73, 0x33031de5, 0xaa0a4c5f, 0xdd0d7cc9, 0x5005713c, 0x270241aa,
  0xbe0b1010, 0xc90c2086, 0x5768b525, 0x206f85b3, 0xb966d409, 0xce61e49f,
  0x5edef90e, 0x29d9c998, 0xb0d09822, 0xc7d7a8b4, 0x59b33d17, 0x2eb40d81,
  0xb7bd5c3b, 0xc0ba6cad, 0xedb88320, 0x9abfb3b6, 0x03b6e20c, 0x74b1d29a,
  0xead54739, 0x9dd277af, 0x04db2615, 0x73dc1683, 0xe3630b12, 0x94643b84,
  0x0d6d6a3e, 0x7a6a5aa8, 0xe40ecf0b, 0x9309ff9d, 0x0a00ae27, 0x7d079eb1,
  0xf00f9344, 0x8708a3d2, 0x1e01f268, 0x6906c2fe, 0xf762575d, 0x806567cb,
  0x196c3671, 0x6e6b06e7, 0xfed41b76, 0x89d32be0, 0x10da7a5a, 0x67dd4acc,
  0xf9b9df6f, 0x8ebeeff9, 0x17b7be43, 0x60b08ed5, 0xd6d6a3e8, 0xa1d1937e,
  0x38d8c2c4, 0x4fdff252, 0xd1bb67f1, 0xa6bc5767, 0x3fb506dd, 0x48b2364b,
  0xd80d2bda, 0xaf0a1b4c, 0x36034af6, 0x41047a60, 0xdf60efc3, 0xa867df55,
  0x316e8eef, 0x4669be79, 0xcb61b38c, 0xbc66831a, 0x256fd2a0, 0x5268e236,
  0xcc0c7795, 0xbb0b4703, 0x220216b9, 0x5505262f, 0xc5ba3bbe, 0xb2bd0b28,
  0x2bb45a92, 0x5cb36a04, 0xc2d7ffa7, 0xb5d0cf31, 0x2cd99e8b, 0x5bdeae1d,
  0x9b64c2b0, 0xec63f226, 0x756aa39c, 0x026d930a, 0x9c0906a9, 0xeb0e363f,
  0x72076785, 0x05005713, 0x95bf4a82, 0xe2b87a14, 0x7bb12bae, 0x0cb61b38,
  0x92d28e9b, 0xe5d5be0d, 0x7cdcefb7, 0x0bdbdf21, 0x86d3d2d4, 0xf1d4e242,
  0x68ddb3f8, 0x1fda836e, 0x81be16cd, 0xf6b9265b, 0x6fb077e1, 0x18b74777,
  0x88085ae6, 0xff0f6a70, 0x66063bca, 0x11010b5c, 0x8f659eff, 0xf862ae69,
  0x616bffd3, 0x166ccf45, 0xa00ae278, 0xd70dd2ee, 0x4e048354, 0x3903b3c2,
  0xa7672661, 0xd06016f7, 0x4969474d, 0x3e6e77db, 0xaed16a4a, 0xd9d65adc,
  0x40df0b66, 0x37d83bf0, 0xa9bcae53, 0xdebb9ec5, 0x47b2cf7f, 0x30b5ffe9,
  0xbdbdf21c, 0xcabac28a, 0x53b39330, 0x24b4a3a6, 0xbad03605, 0xcdd70693,
  0x54de5729, 0x23d967bf, 0xb3667a2e, 0xc4614ab8, 0x5d681b02, 0x2a6f2b94,
  0xb40bbe37, 0xc30c8ea1, 0x5a05df1b, 0x2d02ef8d]

/-- One iteration of the `for byte in buf` loop body of `crc32`:
`crc = CRC32_TABLE[(crc as u8 ^ byte) as usize] ^ (crc >> 8)`. -/
def crc32_update (crc b : Nat) : Nat :=
  CRC32_TABLE.getD ((crc % 256) ^^^ b) 0 ^^^ (crc >>> 8)

/-- `crc32` (components/common.rs): table-driven CRC over a byte buffer.
`!crc` on a `u32` is `crc ^^^ 0xFFFFFFFF`. -/
def crc32 (buf : List Nat) : Nat :=
  (buf.foldl crc32_update 0xFFFFFFFF) ^^^ 0xFFFFFFFF

/-! ### Streaming deserialiser (deserialiser.rs) -/

/-- `DeserialiserState`. -/
inductive DeserialiserState
  | fileHeader
  | block
  deriving DecidableEq, Repr

/-- `DeserialisedFileHeader`. -/
structure DeserialisedFileHeader where
  magic : Nat
  version : Nat
  checksum : Checksum
  deriving DecidableEq, Repr

/-- `DeserialisedBlock`. -/
structure DeserialisedBlock where
  kind : BlockKind
  data_compressed_len : Option Nat
  data_uncompressed_len : Nat
  compression : CompressionAlgorithm
  encoding : Encoding
  parameters : List Nat
  data : List Nat
  deriving DecidableEq, Repr

/-- `DeserialisedResult`. -/
inductive DeserialisedResult
  | fileHeader (fh : DeserialisedFileHeader)
  | moreBytesRequired (n : Nat)
  | block (b : DeserialisedBlock)
  deriving DecidableEq, Repr

/-- `Deserialiser`: `{ inner, state, checksum }`. -/
structure Deserialiser where
  inner : List Nat
  state : DeserialiserState
  checksum : Checksum
  deriving DecidableEq, Repr

/-- `Deserialiser::default()`. -/
def Deserialiser.default : Deserialiser :=
  { inner := [], state := .fileHeader, checksum := .none }

/-- `Deserialiser::digest`: append bytes to the pending buffer. -/
def Deserialiser.digest (d : Deserialiser) (buf : List Nat) : Deserialiser :=
  { d with inner := d.inner ++ buf }

/-- `Deserialiser::reset`: clear the buffer and return to the file-header
state (the stored checksum kind is not touched by the source). -/
def Deserialiser.reset (d : Deserialiser) : Deserialiser :=
  { d with inner := [], state := .fileHeader }

/-- `Deserialiser::deserialise_file_header`.  The `&mut self` receiver is
modelled by returning the updated deserialiser next to the `Result`; every
early `return Err(..)` leaves `self` untouched. -/
def Deserialiser.deserialise_file_header (d : Deserialiser) :
    Except BinaryGcodeError DeserialisedResult × Deserialiser :=
  if d.inner.length < 10 then
    (.ok (.moreBytesRequired (10 - d.inner.length)), d)
  else
    match try_from_slice 4 (slice d.inner 0 4) with
    | .error e => (.error e, d)
    | .ok bytes =>
      let magic := leNat bytes
      if magic ≠ MAGIC then (.error .invalidMagic, d)
      else
        match try_from_slice 4 (slice d.inner 4 8) with
        | .error e => (.error e, d)
        | .ok bytes =>
          let version := leNat bytes
          match try_from_slice 2 (slice d.inner 8 10) with
          | .error e => (.error e, d)
          | .ok bytes =>
            let checksum_value := leNat bytes
            match (match checksum_value with
                   | 1 => Except.ok Checksum.crc32
                   | 0 => Except.ok Checksum.none
                   | v => Except.error (BinaryGcodeError.invalidChecksumType v)) with
            | .error e => (.error e, d)
            | .ok checksum =>
              let fh : DeserialisedFileHeader :=
                { magic := magic, version := version, checksum := checksum }
              (.ok (.fileHeader fh),
               { inner := d.inner.drop 10, state := .block, checksum := checksum })

/-- `Deserialiser::deserialise_block`.  Note the data slice ends at
`block_len - 4` in the source regardless of the stored checksum kind. -/
def Deserialiser.deserialise_block (d : Deserialiser) :
    Except BinaryGcodeError DeserialisedResult × Deserialiser :=
  if d.inner.length < 12 then
    (.ok (.moreBytesRequired (12 - d.inner.length)), d)
  else
    match try_from_slice 2 (slice d.inner 0 2) with
    | .error e => (.error e, d)
    | .ok bytes =>
      match BlockKind.from_le_bytes bytes with
      | .error e => (.error e, d)
      | .ok kind =>
        match try_from_slice 2 (slice d.inner 2 4) with
        | .error e => (.error e, d)
        | .ok bytes =>
          match CompressionAlgorithm.from_le_bytes bytes with
          | .error e => (.error e, d)
          | .ok compression =>
            match try_from_slice 4 (slice d.inner 4 8) with
            | .error e => (.error e, d)
            | .ok bytes =>
              let data_uncompressed_len := leNat bytes
              match (match compression with
                     | .none => Except.ok Option.none
                     | _ =>
                       match try_from_slice 4 (slice d.inner 8 12) with
                       | .error e => Except.error e
                       | .ok bytes => Except.ok (Option.some (leNat bytes))) with
              | .error e => (.error e, d)
              | .ok data_compressed_len =>
                let param_len : Nat := match kind with
                  | .thumbnail => 6
                  | _ => 2
                -- The source computes `block_len` and performs the
                -- same length test in each arm of a `match` on
                -- `data_compressed_len`; the two arms are merged here.
                let block_len : Nat :=
                  (match data_compressed_len with
                   | some compressed_len => 12 + param_len + compressed_len
                   | none => 8 + param_len + data_uncompressed_len) +
                    (if d.checksum = Checksum.crc32 then 4 else 0)
                if d.inner.length < block_len then
                  (.ok (.moreBytesRequired (block_len - d.inner.length)), d)
                else
                  match (match d.checksum with
                         | .none => Except.ok ()
                         | .crc32 =>
                           match try_from_slice 4 (slice d.inner (block_len - 4) block_len) with
                           | .error e => Except.error e
                           | .ok bytes =>
                             let c := leNat bytes
                             let chk := crc32 (d.inner.take (block_len - 4))
                             if c ≠ chk then
                               Except.error (BinaryGcodeError.invalidChecksum c chk)
                             else Except.ok ()) with
                  | .error e => (.error e, d)
                  | .ok _ =>
                    let param_start : Nat := match data_compressed_len with
                      | some _ => 12
                      | none => 8
                    match try_from_slice 2 (slice d.inner param_start (param_start + 2)) with
                    | .error e => (.error e, d)
                    | .ok encBytes =>
                      match Encoding.from_le_bytes encBytes kind with
                      | .error e => (.error e, d)
                      | .ok encoding =>
                        let parameters := slice d.inner param_start (param_start + param_len)
                        let data := slice d.inner (param_start + param_len) (block_len - 4)
                        let b : DeserialisedBlock :=
                          { kind := kind,
                            data_compressed_len := data_compressed_len,
                            data_uncompressed_len := data_uncompressed_len,
                            compression := compression,
                            encoding := encoding,
                            parameters := parameters,
                            data := data }
                        (.ok (.block b), { d with inner := d.inner.drop block_len })

/-- `Deserialiser::deserialise`. -/
def Deserialiser.deserialise (d : Deserialiser) :
    Except BinaryGcodeError DeserialisedResult × Deserialiser :=
  match d.state with
  | .fileHeader => d.deserialise_file_header
  | .block => d.deserialise_block

/-! ### Block serialiser (components/serialiser.rs)

`compress_to_vec_zlib(data, 10)` and the heatshrink `shrink` pump are
external collaborators (`miniz_oxide`, `embedded_heatshrink`); they enter
`serialise_block` as abstract parameters at exactly the source call sites. -/

/-- `serialise_file_header`. -/
def serialise_file_header (version : Nat) (checksum : Checksum) : List Nat :=
  u32toLe MAGIC ++ u32toLe version ++ checksum.to_le_bytes

/-- `serialise_block`.  `Cdeflate` stands for `compress_to_vec_zlib(·, 10)`
and `Cshrink w l` for the `shrink(w, l, ·)` wrapper around the heatshrink
encoder, which can fail. -/
def serialise_block (Cdeflate : List Nat → List Nat)
    (Cshrink : Nat → Nat → List Nat → Except BinaryGcodeError (List Nat))
    (kind : BlockKind) (compression : CompressionAlgorithm) (encoding : Encoding)
    (checksum : Checksum) (additional_parameters data : List Nat) :
    Except BinaryGcodeError (List Nat) :=
  let header := kind.to_le_bytes ++ compression.to_le_bytes ++ u32toLe data.length
  let parameters := encoding.to_le_bytes ++ additional_parameters
  let body : Except BinaryGcodeError (List Nat) :=
    match compression with
    | .none => .ok (header ++ parameters ++ data)
    | .deflate =>
      let compressed := Cdeflate data
      .ok (header ++ u32toLe compressed.length ++ parameters ++ compressed)
    | .heatshrink11_4 =>
      match Cshrink 11 4 data with
      | .error e => .error e
      | .ok compressed =>
        .ok (header ++ u32toLe compressed.length ++ parameters ++ compressed)
    | .heatshrink12_4 =>
      match Cshrink 12 4 data with
      | .error e => .error e
      | .ok compressed =>
        .ok (header ++ u32toLe compressed.length ++ parameters ++ compressed)
  match body with
  | .error e => .error e
  | .ok blk =>
    .ok (if checksum = Checksum.crc32 then blk ++ u32toLe (crc32 blk) else blk)

/-! ### Heatshrink decompression pump (`unshrink`, deserialiser.rs)

The `HeatshrinkDecoder` itself is external; it is modelled as an abstract
state machine.  `poll` receives the capacity of the output slice
`&mut uncompressed[polled..]` and returns the bytes it wrote (clamped to
that capacity, as the mutable slice enforces in Rust).  The Rust loops have
no fuel, so the model adds one; `Option.none` marks exhausted fuel and
corresponds to a non-terminating run. -/

/-- `BlockError` (deserialiser.rs). -/
inductive BlockError
  | decodeError (s : String)
  deriving DecidableEq, Repr

/-- `HSDSinkRes` of `embedded_heatshrink`. -/
inductive HSDSinkRes
  | ok (sz : Nat)
  | full
  | errorNull
  deriving DecidableEq, Repr

/-- `HSDPollRes` of `embedded_heatshrink`; the payload is what the decoder
wrote into the output slice. -/
inductive HSDPollRes
  | empty (out : List Nat)
  | more (out : List Nat)
  | errorNull
  | errorUnknown
  deriving DecidableEq, Repr

/-- `HSDFinishRes` of `embedded_heatshrink`. -/
inductive HSDFinishRes
  | done
  | more
  | errorNull
  deriving DecidableEq, Repr

/-- Abstract `HeatshrinkDecoder` behaviour over hidden state `σ`. -/
structure HSDecoder (σ : Type) where
  sink : σ → List Nat → HSDSinkRes × σ
  poll : σ → Nat → HSDPollRes × σ
  finish : σ → HSDFinishRes × σ

/-- Writing `out` into `uncompressed[polled..]`: the slice clamps the write
to the remaining capacity; returns the updated buffer and new `polled`. -/
def hs_write (buf : List Nat) (polled : Nat) (out : List Nat) : List Nat × Nat :=
  let written := out.take (buf.length - polled)
  (buf.take polled ++ written ++ buf.drop (polled + written.length),
   polled + written.length)

/-- The inner `loop { decoder.poll(..) }` of `unshrink` after each sink. -/
def unshrink_pollLoop {σ : Type} (dec : HSDecoder σ) :
    Nat → σ → List Nat → Nat → Option (Except BlockError (σ × List Nat × Nat))
  | 0, _, _, _ => none
  | fuel + 1, s, buf, polled =>
    match dec.poll s (buf.length - polled) with
    | (.empty out, s') =>
      let w := hs_write buf polled out
      if w.2 = polled then some (.ok (s', w.1, w.2))
      else unshrink_pollLoop dec fuel s' w.1 w.2
    | (.more out, s') =>
      let w := hs_write buf polled out
      some (.ok (s', w.1, w.2))
    | (.errorNull, _) => some (.error (.decodeError "HSDPollRes::ErrorNull"))
    | (.errorUnknown, _) => some (.error (.decodeError "HSDPollRes::ErrorUnknown"))

/-- The `while sunk < input_buffer_size` loop of `unshrink`. -/
def unshrink_sinkLoop {σ : Type} (dec : HSDecoder σ) (input : List Nat) :
    Nat → σ → List Nat → Nat → Nat → Option (Except BlockError (σ × List Nat × Nat))
  | 0, _, _, _, _ => none
  | fuel + 1, s, buf, polled, sunk =>
    if sunk < input.length then
      match dec.sink s (input.drop sunk) with
      | (.ok sz, s') =>
        match unshrink_pollLoop dec fuel s' buf polled with
        | none => none
        | some (.error e) => some (.error e)
        | some (.ok (s'', buf', polled')) =>
          unshrink_sinkLoop dec input fuel s'' buf' polled' (sunk + sz)
      | (.full, _) => some (.error (.decodeError "HSDSinkRes::Full"))
      | (.errorNull, _) => some (.error (.decodeError "HSDSinkRes::ErrorNull"))
    else some (.ok (s, buf, polled))

/-- The final `loop { decoder.finish() }` of `unshrink`. -/
def unshrink_finishLoop {σ : Type} (dec : HSDecoder σ) :
    Nat → σ → List Nat → Nat → Option (Except BlockError (List Nat × Nat))
  | 0, _, _, _ => none
  | fuel + 1, s, buf, polled =>
    match dec.finish s with
    | (.done, _) => some (.ok (buf, polled))
    | (.more, s') =>
      match dec.poll s' (buf.length - polled) with
      | (.empty out, s'') =>
        let w := hs_write buf polled out
        if w.2 = polled then some (.ok (w.1, w.2))
        else unshrink_finishLoop dec fuel s'' w.1 w.2
      | (.more out, s'') =>
        let w := hs_write buf polled out
        unshrink_finishLoop dec fuel s'' w.1 w.2
      | (.errorUnknown, _) => some (.error (.decodeError "HSDPollRes::ErrorUnknown"))
      | (.errorNull, _) => some (.error (.decodeError "HSDPollRes::ErrorNull"))
    | (.errorNull, _) => some (.error (.decodeError "HSDFinishRes::ErrorNull"))

/-- `unshrink` (deserialiser.rs), with the produced-byte count `polled`
exposed next to the returned buffer.  Decoder construction
(`HeatshrinkDecoder::new(input_len as u16, window, lookahead)`) is absorbed
into the abstract initial state `s0`. -/
def unshrinkAux {σ : Type} (dec : HSDecoder σ) (s0 : σ) (input : List Nat)
    (uncompressed_len fuel : Nat) : Option (Except BlockError (List Nat × Nat)) :=
  match unshrink_sinkLoop dec input fuel s0 (List.replicate uncompressed_len 0) 0 0 with
  | none => none
  | some (.error e) => some (.error e)
  | some (.ok (s, buf, polled)) => unshrink_finishLoop dec fuel s buf polled

/-- `unshrink`'s visible result: `Ok(uncompressed.into_boxed_slice())`. -/
def unshrink {σ : Type} (dec : HSDecoder σ) (s0 : σ) (input : List Nat)
    (uncompressed_len fuel : Nat) : Option (Except BlockError (List Nat)) :=
  (unshrinkAux dec s0 input uncompressed_len fuel).map (Except.map Prod.fst)

/-- `DeserialisedBlock::decompress` (deserialiser.rs).  `zlib` stands for
`decompress_to_vec_zlib`; `mk n w l` is the decoder state created by
`HeatshrinkDecoder::new(n, w, l)` where `n` is the input length as `u16`. -/
def DeserialisedBlock.decompress {σ : Type} (zlib : List Nat → Option (List Nat))
    (dec : HSDecoder σ) (mk : Nat → Nat → Nat → σ) (fuel : Nat)
    (b : DeserialisedBlock) : Option (Except BlockError (List Nat)) :=
  match b.compression with
  | .none => some (.ok b.data)
  | .deflate =>
    some (match zlib b.data with
          | some o => .ok o
          | none => .error (.decodeError "deflate"))
  | .heatshrink11_4 =>
    unshrink dec (mk (b.data.length % 2 ^ 16) 11 4) b.data b.data_uncompressed_len fuel
  | .heatshrink12_4 =>
    unshrink dec (mk (b.data.length % 2 ^ 16) 12 4) b.data b.data_uncompressed_len fuel

/-! ### Reference bit-at-a-time CRC-32 (modelled from the spec)

Reflected CRC-32/ISO-HDLC: polynomial `0xEDB88320`, initial value
`0xFFFFFFFF`, final XOR `0xFFFFFFFF`, one bit at a time. -/

/-- The reflected polynomial. -/
def CRC_POLY : Nat := 0xEDB88320

/-- One bit step of the reference CRC. -/
def crcStep (x : Nat) : Nat :=
  if x % 2 = 1 then (x >>> 1) ^^^ CRC_POLY else x >>> 1

/-- Eight bit steps. -/
def crcStep8 (x : Nat) : Nat :=
  crcStep (crcStep (crcStep (crcStep (crcStep (crcStep (crcStep (crcStep x)))))))

/-- Modelled from the spec: the reference reflected CRC-32/ISO-HDLC,
computed bit-at-a-time (`crc ^= byte` then eight conditional shift steps per
byte), initial `0xFFFFFFFF`, final XOR `0xFFFFFFFF`. -/
def crc32_ref (buf : List Nat) : Nat :=
  (buf.foldl (fun crc b => crcStep8 (crc ^^^ b)) 0xFFFFFFFF) ^^^ 0xFFFFFFFF

/-! ### Draining, validity predicates and test doubles -/

/-- The events a drain loop observes (`MoreBytesRequired` ends the loop). -/
inductive Event
  | fileHeader (fh : DeserialisedFileHeader)
  | block (b : DeserialisedBlock)
  deriving DecidableEq, Repr

/-- Drive `deserialise` until it reports `MoreBytesRequired`, collecting the
emitted events, the final byte request and the final deserialiser.  The
loop is fuelled; `none` marks exhausted fuel. -/
def drainFuel : Nat → Deserialiser →
    Option (Except BinaryGcodeError (List Event × Nat × Deserialiser))
  | 0, _ => none
  | fuel + 1, d =>
    match d.deserialise with
    | (.error e, _) => some (.error e)
    | (.ok (.moreBytesRequired n), d') => some (.ok ([], n, d'))
    | (.ok (.fileHeader fh), d') =>
      (drainFuel fuel d').map (Except.map fun r => (Event.fileHeader fh :: r.1, r.2.1, r.2.2))
    | (.ok (.block b), d') =>
      (drainFuel fuel d').map (Except.map fun r => (Event.block b :: r.1, r.2.1, r.2.2))

/-- The legal `(kind, encoding)` pairs of the data model. -/
def encodingValid : BlockKind → Encoding → Bool
  | .fileMetadata, .ini => true
  | .slicerMetadata, .ini => true
  | .printMetadata, .ini => true
  | .printerMetadata, .ini => true
  | .gcode, .ascii => true
  | .gcode, .meatpack => true
  | .gcode, .meatpackWithComments => true
  | .thumbnail, .png => true
  | .thumbnail, .jpg => true
  | .thumbnail, .qoi => true
  | _, _ => false

/-- Numeric code of a block kind per the data-model table. -/
def BlockKind.code : BlockKind → Nat
  | .fileMetadata => 0
  | .gcode => 1
  | .slicerMetadata => 2
  | .printerMetadata => 3
  | .printMetadata => 4
  | .thumbnail => 5

/-- A concrete uncompressed FileMetadata/Ini block body (header, encoding
parameter and one payload byte; CRC not yet appended). -/
def sampleBlockBytes : List Nat := [0, 0, 0, 0, 1, 0, 0, 0, 0, 0, 65]

/-- A deserialiser that has accepted a Crc32 file header and holds the
sample block followed by its CRC32. -/
def sampleCrcDeserialiser : Deserialiser :=
  ⟨sampleBlockBytes ++ u32toLe (crc32 sampleBlockBytes), .block, .crc32⟩

/-- A concrete uncompressed GCode/Ascii block body with payload
`"M73 P0 R30"` (CRC not yet appended). -/
def sampleGcodeBlockBody : List Nat :=
  [1, 0, 0, 0, 10, 0, 0, 0, 0, 0, 77, 55, 51, 32, 80, 48, 32, 82, 51, 48]

/-- The same block framed with its CRC32. -/
def sampleGcodeFrame : List Nat :=
  sampleGcodeBlockBody ++ u32toLe (crc32 sampleGcodeBlockBody)

/-- Payload of the size-flip scenario: the CRC32 of ten zero bytes, stored
little-endian, followed by four zero bytes. -/
def c6Payload : List Nat := u32toLe (crc32 [0, 0, 0, 0, 0, 0, 0, 0, 0, 0]) ++ [0, 0, 0, 0]

/-- An uncompressed FileMetadata/Ini block body carrying `c6Payload`
(uncompressed size 8), CRC not yet appended. -/
def c6Blk : List Nat := [0, 0, 0, 0, 8, 0, 0, 0, 0, 0] ++ c6Payload

/-- The same block framed with its CRC32. -/
def c6Frame : List Nat := c6Blk ++ u32toLe (crc32 c6Blk)

/-- A decoder behaviour for exercising the `unshrink` pump: swallows all
input, produces the single byte `7` on its first poll, then finishes. -/
def oneByteDecoder : HSDecoder Nat where
  sink := fun s input => (.ok input.length, s)
  poll := fun s _ => if s = 0 then (.empty [7], 1) else (.empty [], s)
  finish := fun s => (.done, s)

deriving instance DecidableEq for Except

/-! ### Byte predicates and little-endian lemmas -/

/-- All entries of a buffer are bytes. -/
def isBytes (l : List Nat) : Prop := ∀ b ∈ l, b < 256

instance (l : List Nat) : Decidable (isBytes l) := by
  unfold isBytes; infer_instance

theorem leNat_u16toLe (v : Nat) (h : v < 2 ^ 16) : leNat (u16toLe v) = v := by
  simp only [u16toLe, leNat, List.foldr]
  omega

theorem leNat_u32toLe (v : Nat) (h : v < 2 ^ 32) : leNat (u32toLe v) = v := by
  simp only [u32toLe, leNat, List.foldr]
  omega

theorem u16toLe_length (v : Nat) : (u16toLe v).length = 2 := rfl

theorem u32toLe_length (v : Nat) : (u32toLe v).length = 4 := rfl

theorem u16toLe_isBytes (v : Nat) : isBytes (u16toLe v) := by
  simp only [u16toLe, isBytes, List.mem_cons, List.not_mem_nil]
  rintro b (rfl | rfl | h) <;> first | omega | cases h

theorem u32toLe_isBytes (v : Nat) : isBytes (u32toLe v) := by
  simp only [u32toLe, isBytes, List.mem_cons, List.not_mem_nil]
  rintro b (rfl | rfl | rfl | rfl | h) <;> first | omega | cases h

/-! ### XOR arithmetic toolbox -/

theorem xor_shiftRight (a b n : Nat) : (a ^^^ b) >>> n = a >>> n ^^^ b >>> n := by
  apply Nat.eq_of_testBit_eq
  intro i
  simp [Nat.testBit_shiftRight, Nat.testBit_xor]

theorem xor_mod_two_pow (a b n : Nat) :
    (a ^^^ b) % 2 ^ n = a % 2 ^ n ^^^ b % 2 ^ n := by
  apply Nat.eq_of_testBit_eq
  intro i
  by_cases h : i < n <;> simp [Nat.testBit_mod_two_pow, Nat.testBit_xor, h]

theorem mul256_xor (a b : Nat) (h : b < 256) : (256 * a) ^^^ b = 256 * a + b := by
  apply Nat.eq_of_testBit_eq
  intro i
  have h256 : (256 : Nat) = 2 ^ 8 := rfl
  rw [Nat.testBit_xor, h256, Nat.testBit_mul_pow_two_add a (by omega : b < 2 ^ 8) i,
    Nat.testBit_mul_pow_two]
  by_cases hi : i < 8
  · simp [hi, Nat.not_le_of_lt hi]
  · have hb : b.testBit i = false :=
      Nat.testBit_lt_two_pow (Nat.lt_of_lt_of_le (by omega : b < 2 ^ 8)
        (Nat.pow_le_pow_right (by omega) (by omega)))
    simp [hi, Nat.le_of_not_lt hi, hb]

theorem xor_cancel_two (x y p : Nat) : (x ^^^ p) ^^^ (y ^^^ p) = x ^^^ y := by
  rw [Nat.xor_comm y p, ← Nat.xor_assoc, Nat.xor_assoc x p p, Nat.xor_self, Nat.xor_zero]

/-! ### Table-driven CRC equals the bit-at-a-time reference -/

theorem crcStep_xor (a b : Nat) : crcStep (a ^^^ b) = crcStep a ^^^ crcStep b := by
  have hdiv := xor_shiftRight a b 1
  have hmod2 : (a ^^^ b) % 2 = 1 ↔ ¬(a % 2 = 1 ↔ b % 2 = 1) := Nat.xor_mod_two_eq_one
  unfold crcStep
  by_cases ha : a % 2 = 1 <;> by_cases hb : b % 2 = 1
  · have hab : ¬ (a ^^^ b) % 2 = 1 := by rw [hmod2]; simp [ha, hb]
    rw [if_neg hab, if_pos ha, if_pos hb, hdiv, xor_cancel_two]
  · have hab : (a ^^^ b) % 2 = 1 := by rw [hmod2]; simp [ha, hb]
    rw [if_pos hab, if_pos ha, if_neg hb, hdiv, Nat.xor_assoc,
      Nat.xor_comm (b >>> 1) CRC_POLY, ← Nat.xor_assoc]
  · have hab : (a ^^^ b) % 2 = 1 := by rw [hmod2]; simp [ha, hb]
    rw [if_pos hab, if_neg ha, if_pos hb, hdiv, Nat.xor_assoc]
  · have hab : ¬ (a ^^^ b) % 2 = 1 := by rw [hmod2]; simp [ha, hb]
    rw [if_neg hab, if_neg ha, if_neg hb, hdiv]

theorem crcStep8_xor (a b : Nat) : crcStep8 (a ^^^ b) = crcStep8 a ^^^ crcStep8 b := by
  simp [crcStep8, crcStep_xor]

theorem crcStep_double (m : Nat) : crcStep (2 * m) = m := by
  unfold crcStep
  have h2 : (2 * m) % 2 = 0 := by omega
  simp [h2, Nat.shiftRight_succ, Nat.shiftRight_zero, Nat.mul_div_cancel_left m (by omega : 0 < 2)]

theorem crcStep8_mul256 (h : Nat) : crcStep8 (256 * h) = h := by
  unfold crcStep8
  rw [show 256 * h = 2 * (128 * h) by ring, crcStep_double,
    show 128 * h = 2 * (64 * h) by ring, crcStep_double,
    show 64 * h = 2 * (32 * h) by ring, crcStep_double,
    show 32 * h = 2 * (16 * h) by ring, crcStep_double,
    show 16 * h = 2 * (8 * h) by ring, crcStep_double,
    show 8 * h = 2 * (4 * h) by ring, crcStep_double,
    show 4 * h = 2 * (2 * h) by ring, crcStep_double,
    show 2 * h = 2 * (1 * h) by ring, crcStep_double, Nat.one_mul]

set_option maxRecDepth 8192 in
theorem table_spec : ∀ i < 256, CRC32_TABLE.getD i 0 = crcStep8 i := by decide

theorem crcStep8_decomp (x : Nat) :
    crcStep8 x = CRC32_TABLE.getD (x % 256) 0 ^^^ (x >>> 8) := by
  have hx : x = (256 * (x >>> 8)) ^^^ (x % 256) := by
    rw [mul256_xor _ _ (Nat.mod_lt _ (by omega)), Nat.shiftRight_eq_div_pow]
    have := Nat.div_add_mod x 256
    omega
  conv_lhs => rw [hx]
  rw [crcStep8_xor, crcStep8_mul256, table_spec _ (Nat.mod_lt _ (by omega)), Nat.xor_comm]

theorem crc32_update_eq_ref (crc b : Nat) (hb : b < 256) :
    crc32_update crc b = crcStep8 (crc ^^^ b) := by
  rw [crcStep8_decomp, crc32_update]
  have h256 : (256 : Nat) = 2 ^ 8 := rfl
  have hmod : (crc ^^^ b) % 256 = crc % 256 ^^^ b := by
    rw [h256, xor_mod_two_pow, ← h256, Nat.mod_eq_of_lt hb]
  have hshift : (crc ^^^ b) >>> 8 = crc >>> 8 := by
    rw [xor_shiftRight]
    have : b >>> 8 = 0 := by
      rw [Nat.shiftRight_eq_div_pow]
      omega
    rw [this, Nat.xor_zero]
  rw [hmod, hshift]

theorem crc32_fold_eq_ref (buf : List Nat) (hb : isBytes buf) : ∀ crc : Nat,
    buf.foldl crc32_update crc = buf.foldl (fun crc b => crcStep8 (crc ^^^ b)) crc := by
  induction buf with
  | nil => intro crc; rfl
  | cons x xs ih =>
    intro crc
    have hx : x < 256 := hb x (List.mem_cons_self x xs)
    have hxs : isBytes xs := fun b h => hb b (List.mem_cons_of_mem x h)
    simp only [List.foldl_cons, crc32_update_eq_ref crc x hx, ih hxs]

/-- Core equivalence: the table-driven `crc32` of the source agrees with the
bit-at-a-time reference CRC on every byte buffer. -/
theorem crc32_eq_ref (buf : List Nat) (hb : isBytes buf) : crc32 buf = crc32_ref buf := by
  rw [crc32, crc32_ref, crc32_fold_eq_ref buf hb]

/-! ### CRC injectivity: a single changed byte changes the CRC -/

theorem crcStep_lt (x : Nat) (h : x < 2 ^ 32) : crcStep x < 2 ^ 32 := by
  unfold crcStep
  have h1 : x >>> 1 < 2 ^ 32 := by
    rw [Nat.shiftRight_eq_div_pow]
    omega
  split
  · exact Nat.xor_lt_two_pow h1 (by norm_num [CRC_POLY])
  · exact h1

theorem crcStep8_lt (x : Nat) (h : x < 2 ^ 32) : crcStep8 x < 2 ^ 32 := by
  unfold crcStep8
  exact crcStep_lt _ (crcStep_lt _ (crcStep_lt _ (crcStep_lt _ (crcStep_lt _
    (crcStep_lt _ (crcStep_lt _ (crcStep_lt _ h)))))))

theorem xor_right_cancel {a b p : Nat} (h : a ^^^ p = b ^^^ p) : a = b := by
  have := congrArg (· ^^^ p) h
  simpa [Nat.xor_assoc, Nat.xor_self, Nat.xor_zero] using this

theorem xor_left_cancel {a b p : Nat} (h : p ^^^ a = p ^^^ b) : a = b := by
  rw [Nat.xor_comm p a, Nat.xor_comm p b] at h
  exact xor_right_cancel h

theorem crcStep_inj {x y : Nat} (hx : x < 2 ^ 32) (hy : y < 2 ^ 32)
    (h : crcStep x = crcStep y) : x = y := by
  have hxd : x >>> 1 = x / 2 := by rw [Nat.shiftRight_eq_div_pow]
  have hyd : y >>> 1 = y / 2 := by rw [Nat.shiftRight_eq_div_pow]
  have hP : Nat.testBit CRC_POLY 31 = true := by decide
  unfold crcStep at h
  have hxb : x >>> 1 < 2 ^ 31 := by omega
  have hyb : y >>> 1 < 2 ^ 31 := by omega
  have hbig : ∀ z : Nat, z < 2 ^ 31 → 2 ^ 31 ≤ z ^^^ CRC_POLY := by
    intro z hz
    refine Nat.testBit_implies_ge ?_
    rw [Nat.testBit_xor, Nat.testBit_lt_two_pow hz, hP]
    rfl
  by_cases ha : x % 2 = 1 <;> by_cases hb : y % 2 = 1
  · rw [if_pos ha, if_pos hb] at h
    have := xor_right_cancel h
    omega
  · rw [if_pos ha, if_neg hb] at h
    have := hbig _ hxb
    omega
  · rw [if_neg ha, if_pos hb] at h
    have := hbig _ hyb
    omega
  · rw [if_neg ha, if_neg hb] at h
    omega

theorem crcStep8_inj {x y : Nat} (hx : x < 2 ^ 32) (hy : y < 2 ^ 32)
    (h : crcStep8 x = crcStep8 y) : x = y := by
  unfold crcStep8 at h
  have l1 := crcStep_lt _ hx
  have l2 := crcStep_lt _ l1
  have l3 := crcStep_lt _ l2
  have l4 := crcStep_lt _ l3
  have l5 := crcStep_lt _ l4
  have l6 := crcStep_lt _ l5
  have l7 := crcStep_lt _ l6
  have r1 := crcStep_lt _ hy
  have r2 := crcStep_lt _ r1
  have r3 := crcStep_lt _ r2
  have r4 := crcStep_lt _ r3
  have r5 := crcStep_lt _ r4
  have r6 := crcStep_lt _ r5
  have r7 := crcStep_lt _ r6
  exact crcStep_inj hx hy (crcStep_inj l1 r1 (crcStep_inj l2 r2 (crcStep_inj l3 r3
    (crcStep_inj l4 r4 (crcStep_inj l5 r5 (crcStep_inj l6 r6 (crcStep_inj l7 r7 h)))))))

/-- The reference per-byte update of the CRC state. -/
theorem ref_update_lt (crc b : Nat) (hc : crc < 2 ^ 32) (hb : b < 256) :
    crcStep8 (crc ^^^ b) < 2 ^ 32 :=
  crcStep8_lt _ (Nat.xor_lt_two_pow hc (by omega))

theorem ref_fold_lt (l : List Nat) (hl : isBytes l) : ∀ crc : Nat, crc < 2 ^ 32 →
    l.foldl (fun crc b => crcStep8 (crc ^^^ b)) crc < 2 ^ 32 := by
  induction l with
  | nil => intro crc h; exact h
  | cons x xs ih =>
    intro crc h
    have hx : x < 256 := hl x (List.mem_cons_self x xs)
    exact ih (fun b hb => hl b (List.mem_cons_of_mem x hb)) _ (ref_update_lt _ _ h hx)

theorem ref_fold_ne (post : List Nat) (hpost : isBytes post) :
    ∀ c1 c2 : Nat, c1 < 2 ^ 32 → c2 < 2 ^ 32 → c1 ≠ c2 →
      post.foldl (fun crc b => crcStep8 (crc ^^^ b)) c1 ≠
        post.foldl (fun crc b => crcStep8 (crc ^^^ b)) c2 := by
  induction post with
  | nil => intro c1 c2 _ _ hne; exact hne
  | cons x xs ih =>
    intro c1 c2 h1 h2 hne
    have hx : x < 256 := hpost x (List.mem_cons_self x xs)
    have hxs : isBytes xs := fun b hb => hpost b (List.mem_cons_of_mem x hb)
    simp only [List.foldl_cons]
    refine ih hxs _ _ (ref_update_lt _ _ h1 hx) (ref_update_lt _ _ h2 hx) ?_
    intro hstep
    exact hne (xor_right_cancel
      (crcStep8_inj (Nat.xor_lt_two_pow h1 (by omega)) (Nat.xor_lt_two_pow h2 (by omega)) hstep))

/-- Flipping one byte of a buffer changes `crc32`. -/
theorem crc32_flip_ne (pre post : List Nat) (b b' : Nat)
    (hpre : isBytes pre) (hpost : isBytes post) (hb : b < 256) (hb' : b' < 256)
    (hne : b ≠ b') :
    crc32 (pre ++ b :: post) ≠ crc32 (pre ++ b' :: post) := by
  have h1 : isBytes (pre ++ b :: post) := by
    intro x hx
    rcases List.mem_append.mp hx with h | h
    · exact hpre x h
    · rcases List.mem_cons.mp h with rfl | h
      · exact hb
      · exact hpost x h
  have h2 : isBytes (pre ++ b' :: post) := by
    intro x hx
    rcases List.mem_append.mp hx with h | h
    · exact hpre x h
    · rcases List.mem_cons.mp h with rfl | h
      · exact hb'
      · exact hpost x h
  rw [crc32_eq_ref _ h1, crc32_eq_ref _ h2, crc32_ref, crc32_ref]
  intro hcontra
  have hfold := xor_right_cancel hcontra
  rw [List.foldl_append, List.foldl_append, List.foldl_cons, List.foldl_cons] at hfold
  set c := pre.foldl (fun crc b => crcStep8 (crc ^^^ b)) 0xFFFFFFFF with hc
  have hclt : c < 2 ^ 32 := ref_fold_lt pre hpre _ (by norm_num)
  refine ref_fold_ne post hpost _ _ (ref_update_lt _ _ hclt hb) (ref_update_lt _ _ hclt hb') ?_ hfold
  intro hstep
  exact hne (xor_left_cancel
    (crcStep8_inj (Nat.xor_lt_two_pow hclt (by omega)) (Nat.xor_lt_two_pow hclt (by omega)) hstep))

set_option maxRecDepth 8192 in
theorem crc32_lt (buf : List Nat) : crc32 buf < 2 ^ 32 := by
  have htab : ∀ i : Nat, CRC32_TABLE.getD i 0 < 2 ^ 32 := by
    intro i
    by_cases h : i < CRC32_TABLE.length
    · have hmem : CRC32_TABLE.getD i 0 ∈ CRC32_TABLE := by
        rw [List.getD_eq_getElem?_getD, List.getElem?_eq_getElem h]
        exact List.getElem_mem h
      have hall : ∀ x ∈ CRC32_TABLE, x < 2 ^ 32 := by decide
      exact hall _ hmem
    · rw [List.getD_eq_getElem?_getD, List.getElem?_eq_none (by omega)]
      norm_num
  have hfold : ∀ (l : List Nat) (crc : Nat), crc < 2 ^ 32 →
      l.foldl crc32_update crc < 2 ^ 32 := by
    intro l
    induction l with
    | nil => intro crc h; exact h
    | cons x xs ih =>
      intro crc h
      refine ih _ ?_
      unfold crc32_update
      refine Nat.xor_lt_two_pow (htab _) ?_
      rw [Nat.shiftRight_eq_div_pow]
      omega
  exact Nat.xor_lt_two_pow (hfold _ _ (by norm_num)) (by norm_num)

/-! ### List slice lemmas -/

theorem slice_append_of_le (l r : List Nat) (a b : Nat) (h : b ≤ l.length) :
    slice (l ++ r) a b = slice l a b := by
  by_cases ha : a ≤ l.length
  · unfold slice
    rw [List.drop_append_of_le_length ha]
    have : b - a ≤ (l.drop a).length := by
      rw [List.length_drop]
      omega
    rw [List.take_append_of_le_length this]
  · unfold slice
    have hb : b - a = 0 := by omega
    rw [hb]
    simp

theorem slice_of_append (l r : List Nat) (a b : Nat) (h : l.length ≤ a) :
    slice (l ++ r) a b = slice r (a - l.length) (b - l.length) := by
  unfold slice
  rw [List.drop_append_eq_append_drop, List.drop_eq_nil_of_le h, List.nil_append]
  congr 1
  omega

theorem slice_zero_len (l r : List Nat) (n : Nat) (h : l.length = n) :
    slice (l ++ r) 0 n = l := by
  unfold slice
  rw [List.drop_zero, Nat.sub_zero, List.take_append_of_le_length (by omega),
    ← h, List.take_length]

theorem slice_full (l : List Nat) (n : Nat) (h : l.length = n) : slice l 0 n = l := by
  unfold slice
  rw [List.drop_zero, Nat.sub_zero, ← h, List.take_length]

theorem slice_length (l : List Nat) (a b : Nat) (h : b ≤ l.length) :
    (slice l a b).length = b - a := by
  unfold slice
  rw [List.length_take, List.length_drop]
  omega

/-! ### Deserialiser state facts -/

@[simp] theorem digest_inner (d : Deserialiser) (s : List Nat) :
    (d.digest s).inner = d.inner ++ s := rfl

@[simp] theorem digest_state (d : Deserialiser) (s : List Nat) :
    (d.digest s).state = d.state := rfl

@[simp] theorem digest_checksum (d : Deserialiser) (s : List Nat) :
    (d.digest s).checksum = d.checksum := rfl

theorem digest_digest (d : Deserialiser) (a b : List Nat) :
    (d.digest a).digest b = d.digest (a ++ b) := by
  simp [Deserialiser.digest, List.append_assoc]

/-- Every error path of `deserialise` leaves the deserialiser unchanged. -/
theorem deserialise_error_id : ∀ (d : Deserialiser) (e : BinaryGcodeError)
    (d2 : Deserialiser), d.deserialise = (.error e, d2) → d2 = d := by
  rintro ⟨inner, state, checksum⟩ e d2 h
  cases state
  case fileHeader =>
    simp only [Deserialiser.deserialise] at h
    unfold Deserialiser.deserialise_file_header at h
    iterate 8 (all_goals (try (split at h)))
    all_goals try simp_all
    iterate 4 (all_goals (try (split at h)); all_goals (try simp_all))
  case block =>
    simp only [Deserialiser.deserialise] at h
    unfold Deserialiser.deserialise_block at h
    iterate 12 (all_goals (try (split at h)))
    all_goals try simp_all
    iterate 6 (all_goals (try (split at h)); all_goals (try simp_all))

/-! ### Appending bytes commutes with a completed parse step -/

theorem deserialise_file_header_more (d : Deserialiser) (h : d.inner.length < 10) :
    d.deserialise_file_header = (.ok (.moreBytesRequired (10 - d.inner.length)), d) := by
  unfold Deserialiser.deserialise_file_header
  rw [if_pos h]

theorem deserialise_file_header_extend (d : Deserialiser) (s2 : List Nat)
    (r : Except BinaryGcodeError DeserialisedResult) (d' : Deserialiser)
    (hnm : ∀ n, r ≠ .ok (.moreBytesRequired n))
    (h : d.deserialise_file_header = (r, d')) :
    (d.digest s2).deserialise_file_header = (r, d'.digest s2) := by
  have h10 : ¬ d.inner.length < 10 := by
    intro hlt
    rw [deserialise_file_header_more d hlt] at h
    exact hnm _ (congrArg Prod.fst h).symm
  have hs1 : slice (d.inner ++ s2) 0 4 = slice d.inner 0 4 :=
    slice_append_of_le _ _ _ _ (by omega)
  have hs2 : slice (d.inner ++ s2) 4 8 = slice d.inner 4 8 :=
    slice_append_of_le _ _ _ _ (by omega)
  have hs3 : slice (d.inner ++ s2) 8 10 = slice d.inner 8 10 :=
    slice_append_of_le _ _ _ _ (by omega)
  have hdrop : (d.inner ++ s2).drop 10 = d.inner.drop 10 ++ s2 :=
    List.drop_append_of_le_length (by omega)
  have h10' : ¬ (d.inner ++ s2).length < 10 := by
    rw [List.length_append]; omega
  unfold Deserialiser.deserialise_file_header at h ⊢
  rw [if_neg h10] at h
  simp only [digest_inner, digest_state, digest_checksum]
  rw [if_neg h10', hs1, hs2, hs3]
  iterate 8 (all_goals (try (split at h)))
  all_goals try simp_all [Deserialiser.digest]
  iterate 4 (all_goals (try (split at h)); all_goals (try simp_all [Deserialiser.digest]))
  all_goals (obtain ⟨h1, h2⟩ := h; rw [← h2])
  all_goals simp

theorem try_from_slice_ok (n : Nat) (l : List Nat) (hl : l.length = n) :
    try_from_slice n l = .ok l := by
  unfold try_from_slice
  rw [if_pos hl]

theorem deserialise_block_more12 (d : Deserialiser) (h : d.inner.length < 12) :
    d.deserialise_block = (.ok (.moreBytesRequired (12 - d.inner.length)), d) := by
  unfold Deserialiser.deserialise_block
  rw [if_pos h]

/-- Bridge: the deserialiser's inline `param_len` match as an `if`. -/
theorem matchKindNat_eq (k : BlockKind) (a b : Nat) :
    (match k with
     | BlockKind.thumbnail => a
     | _ => b) = if k = BlockKind.thumbnail then a else b := by
  cases k <;> simp

/-- Bridge: the deserialiser's match on the compression tag as an `if`. -/
theorem matchCompression_eq {α : Type} (c : CompressionAlgorithm) (A B : α) :
    (match c with
     | CompressionAlgorithm.none => A
     | _ => B) = if c = CompressionAlgorithm.none then A else B := by
  cases c <;> simp

/-- Bridge: the deserialiser's matches on `data_compressed_len` as `Option.elim`. -/
theorem matchOption_eq {α : Type} (o : Option Nat) (f : Nat → α) (g : α) :
    (match o with
     | some x => f x
     | none => g) = o.elim g f := by
  cases o <;> rfl

/-- Full characterisation of a successful `deserialise_block` run, with the
parse artefacts given as rewriting hypotheses. -/
theorem deserialise_block_ok (d : Deserialiser)
    (kind : BlockKind) (compression : CompressionAlgorithm) (encoding : Encoding)
    (dul : Nat) (dcl : Option Nat) (param_len block_len param_start : Nat)
    (h12 : ¬ d.inner.length < 12)
    (hk : BlockKind.from_le_bytes (slice d.inner 0 2) = .ok kind)
    (hc : CompressionAlgorithm.from_le_bytes (slice d.inner 2 4) = .ok compression)
    (hdul : leNat (slice d.inner 4 8) = dul)
    (hdcl : (if compression = CompressionAlgorithm.none then Except.ok Option.none
             else Except.ok (Option.some (leNat (slice d.inner 8 12)))) =
      (Except.ok dcl : Except BinaryGcodeError (Option Nat)))
    (hpl : (if kind = BlockKind.thumbnail then (6 : Nat) else 2) = param_len)
    (hbl : dcl.elim (8 + param_len + dul) (fun cl => 12 + param_len + cl) +
             (if d.checksum = Checksum.crc32 then 4 else 0) = block_len)
    (hps : dcl.elim (8 : Nat) (fun _ => 12) = param_start)
    (hlen : ¬ d.inner.length < block_len)
    (hck : d.checksum = Checksum.crc32 →
      leNat (slice d.inner (block_len - 4) block_len) =
        crc32 (d.inner.take (block_len - 4)))
    (henc : Encoding.from_le_bytes (slice d.inner param_start (param_start + 2)) kind =
      .ok encoding) :
    d.deserialise_block =
      (.ok (.block
        { kind := kind,
          data_compressed_len := dcl,
          data_uncompressed_len := dul,
          compression := compression,
          encoding := encoding,
          parameters := slice d.inner param_start (param_start + param_len),
          data := slice d.inner (param_start + param_len) (block_len - 4) }),
       { d with inner := d.inner.drop block_len }) := by
  have t02 : try_from_slice 2 (slice d.inner 0 2) = .ok (slice d.inner 0 2) :=
    try_from_slice_ok _ _ (by rw [slice_length _ _ _ (by omega)])
  have t24 : try_from_slice 2 (slice d.inner 2 4) = .ok (slice d.inner 2 4) :=
    try_from_slice_ok _ _ (by rw [slice_length _ _ _ (by omega)])
  have t48 : try_from_slice 4 (slice d.inner 4 8) = .ok (slice d.inner 4 8) :=
    try_from_slice_ok _ _ (by rw [slice_length _ _ _ (by omega)])
  have t812 : try_from_slice 4 (slice d.inner 8 12) = .ok (slice d.inner 8 12) :=
    try_from_slice_ok _ _ (by rw [slice_length _ _ _ (by omega)])
  unfold Deserialiser.deserialise_block
  rw [if_neg h12, t02]
  dsimp only
  rw [hk]
  dsimp only
  rw [t24]
  dsimp only
  rw [hc]
  dsimp only
  rw [t48]
  dsimp only
  rw [t812]
  dsimp only
  rw [matchCompression_eq, hdcl]
  dsimp only
  rw [hdul, matchKindNat_eq, hpl, matchOption_eq, matchOption_eq, hbl, hps, if_neg hlen]
  have hple : param_len = 6 ∨ param_len = 2 := by
    by_cases hkt : kind = BlockKind.thumbnail
    · rw [if_pos hkt] at hpl
      omega
    · rw [if_neg hkt] at hpl
      omega
  have hps2 : param_start + 2 ≤ block_len := by
    cases dcl with
    | none => simp only [Option.elim] at hbl hps; omega
    | some cl => simp only [Option.elim] at hbl hps; omega
  have hpse : param_start + 2 ≤ d.inner.length := by omega
  have tparam : try_from_slice 2 (slice d.inner param_start (param_start + 2)) =
      .ok (slice d.inner param_start (param_start + 2)) :=
    try_from_slice_ok _ _ (by rw [slice_length _ _ _ hpse]; omega)
  cases hcksum : d.checksum with
  | none =>
    dsimp only
    rw [tparam]
    dsimp only
    rw [henc]
  | crc32 =>
    dsimp only
    have hbl4 : 4 ≤ block_len := by
      rw [hcksum] at hbl
      simp only [if_pos] at hbl
      omega
    have tcrc : try_from_slice 4 (slice d.inner (block_len - 4) block_len) =
        .ok (slice d.inner (block_len - 4) block_len) :=
      try_from_slice_ok _ _ (by rw [slice_length _ _ _ (by omega)]; omega)
    rw [tcrc]
    dsimp only
    rw [hck hcksum, if_neg (by simp)]
    dsimp only
    rw [tparam]
    dsimp only
    rw [henc]

/-- Characterisation of `deserialise_block` hitting a CRC mismatch. -/
theorem deserialise_block_crc_err (d : Deserialiser)
    (kind : BlockKind) (compression : CompressionAlgorithm)
    (dul : Nat) (dcl : Option Nat) (param_len block_len : Nat)
    (h12 : ¬ d.inner.length < 12)
    (hk : BlockKind.from_le_bytes (slice d.inner 0 2) = .ok kind)
    (hc : CompressionAlgorithm.from_le_bytes (slice d.inner 2 4) = .ok compression)
    (hdul : leNat (slice d.inner 4 8) = dul)
    (hdcl : (if compression = CompressionAlgorithm.none then Except.ok Option.none
             else Except.ok (Option.some (leNat (slice d.inner 8 12)))) =
      (Except.ok dcl : Except BinaryGcodeError (Option Nat)))
    (hpl : (if kind = BlockKind.thumbnail then (6 : Nat) else 2) = param_len)
    (hbl : dcl.elim (8 + param_len + dul) (fun cl => 12 + param_len + cl) +
             (if d.checksum = Checksum.crc32 then 4 else 0) = block_len)
    (hlen : ¬ d.inner.length < block_len)
    (hcrc : d.checksum = Checksum.crc32)
    (hne : leNat (slice d.inner (block_len - 4) block_len) ≠
      crc32 (d.inner.take (block_len - 4))) :
    d.deserialise_block =
      (.error (.invalidChecksum (leNat (slice d.inner (block_len - 4) block_len))
        (crc32 (d.inner.take (block_len - 4)))), d) := by
  have t02 : try_from_slice 2 (slice d.inner 0 2) = .ok (slice d.inner 0 2) :=
    try_from_slice_ok _ _ (by rw [slice_length _ _ _ (by omega)])
  have t24 : try_from_slice 2 (slice d.inner 2 4) = .ok (slice d.inner 2 4) :=
    try_from_slice_ok _ _ (by rw [slice_length _ _ _ (by omega)])
  have t48 : try_from_slice 4 (slice d.inner 4 8) = .ok (slice d.inner 4 8) :=
    try_from_slice_ok _ _ (by rw [slice_length _ _ _ (by omega)])
  have t812 : try_from_slice 4 (slice d.inner 8 12) = .ok (slice d.inner 8 12) :=
    try_from_slice_ok _ _ (by rw [slice_length _ _ _ (by omega)])
  unfold Deserialiser.deserialise_block
  rw [if_neg h12, t02]
  dsimp only
  rw [hk]
  dsimp only
  rw [t24]
  dsimp only
  rw [hc]
  dsimp only
  rw [t48]
  dsimp only
  rw [t812]
  dsimp only
  rw [matchCompression_eq, hdcl]
  dsimp only
  rw [hdul, matchKindNat_eq, hpl, matchOption_eq, matchOption_eq, hbl, if_neg hlen]
  rw [hcrc]
  dsimp only
  have hbl4 : 4 ≤ block_len := by
    rw [hcrc] at hbl
    simp only [if_pos] at hbl
    have hple : param_len = 6 ∨ param_len = 2 := by
      by_cases hkt : kind = BlockKind.thumbnail
      · rw [if_pos hkt] at hpl
        omega
      · rw [if_neg hkt] at hpl
        omega
    cases dcl with
    | none => simp only [Option.elim] at hbl; omega
    | some cl => simp only [Option.elim] at hbl; omega
  have tcrc : try_from_slice 4 (slice d.inner (block_len - 4) block_len) =
      .ok (slice d.inner (block_len - 4) block_len) :=
    try_from_slice_ok _ _ (by rw [slice_length _ _ _ (by omega)]; omega)
  rw [tcrc]
  dsimp only
  rw [if_pos hne]

/-- After a passing CRC check, `deserialise_block` is decided entirely by
the encoding validation. -/
theorem deserialise_block_checked (d : Deserialiser)
    (kind : BlockKind) (compression : CompressionAlgorithm)
    (dul : Nat) (dcl : Option Nat) (param_len block_len param_start : Nat)
    (h12 : ¬ d.inner.length < 12)
    (hk : BlockKind.from_le_bytes (slice d.inner 0 2) = .ok kind)
    (hc : CompressionAlgorithm.from_le_bytes (slice d.inner 2 4) = .ok compression)
    (hdul : leNat (slice d.inner 4 8) = dul)
    (hdcl : (if compression = CompressionAlgorithm.none then Except.ok Option.none
             else Except.ok (Option.some (leNat (slice d.inner 8 12)))) =
      (Except.ok dcl : Except BinaryGcodeError (Option Nat)))
    (hpl : (if kind = BlockKind.thumbnail then (6 : Nat) else 2) = param_len)
    (hbl : dcl.elim (8 + param_len + dul) (fun cl => 12 + param_len + cl) +
             (if d.checksum = Checksum.crc32 then 4 else 0) = block_len)
    (hps : dcl.elim (8 : Nat) (fun _ => 12) = param_start)
    (hlen : ¬ d.inner.length < block_len)
    (hck : d.checksum = Checksum.crc32 →
      leNat (slice d.inner (block_len - 4) block_len) =
        crc32 (d.inner.take (block_len - 4))) :
    (∀ e, Encoding.from_le_bytes (slice d.inner param_start (param_start + 2)) kind =
        .error e → d.deserialise_block = (.error e, d)) ∧
    (∀ encoding,
      Encoding.from_le_bytes (slice d.inner param_start (param_start + 2)) kind =
        .ok encoding →
      d.deserialise_block =
        (.ok (.block
          { kind := kind,
            data_compressed_len := dcl,
            data_uncompressed_len := dul,
            compression := compression,
            encoding := encoding,
            parameters := slice d.inner param_start (param_start + param_len),
            data := slice d.inner (param_start + param_len) (block_len - 4) }),
         { d with inner := d.inner.drop block_len })) := by
  have t02 : try_from_slice 2 (slice d.inner 0 2) = .ok (slice d.inner 0 2) :=
    try_from_slice_ok _ _ (by rw [slice_length _ _ _ (by omega)])
  have t24 : try_from_slice 2 (slice d.inner 2 4) = .ok (slice d.inner 2 4) :=
    try_from_slice_ok _ _ (by rw [slice_length _ _ _ (by omega)])
  have t48 : try_from_slice 4 (slice d.inner 4 8) = .ok (slice d.inner 4 8) :=
    try_from_slice_ok _ _ (by rw [slice_length _ _ _ (by omega)])
  have t812 : try_from_slice 4 (slice d.inner 8 12) = .ok (slice d.inner 8 12) :=
    try_from_slice_ok _ _ (by rw [slice_length _ _ _ (by omega)])
  have hple : param_len = 6 ∨ param_len = 2 := by
    by_cases hkt : kind = BlockKind.thumbnail
    · rw [if_pos hkt] at hpl
      omega
    · rw [if_neg hkt] at hpl
      omega
  have hps2 : param_start + 2 ≤ block_len := by
    cases dcl with
    | none => simp only [Option.elim] at hbl hps; omega
    | some cl => simp only [Option.elim] at hbl hps; omega
  have hpse : param_start + 2 ≤ d.inner.length := by omega
  have tparam : try_from_slice 2 (slice d.inner param_start (param_start + 2)) =
      .ok (slice d.inner param_start (param_start + 2)) :=
    try_from_slice_ok _ _ (by rw [slice_length _ _ _ hpse]; omega)
  have core : ∀ res, Encoding.from_le_bytes
      (slice d.inner param_start (param_start + 2)) kind = res →
      d.deserialise_block =
        (match res with
         | .error e => (.error e, d)
         | .ok encoding =>
           (.ok (.block
             { kind := kind,
               data_compressed_len := dcl,
               data_uncompressed_len := dul,
               compression := compression,
               encoding := encoding,
               parameters := slice d.inner param_start (param_start + param_len),
               data := slice d.inner (param_start + param_len) (block_len - 4) }),
            { d with inner := d.inner.drop block_len })) := by
    intro res hres
    unfold Deserialiser.deserialise_block
    rw [if_neg h12, t02]
    dsimp only
    rw [hk]
    dsimp only
    rw [t24]
    dsimp only
    rw [hc]
    dsimp only
    rw [t48]
    dsimp only
    rw [t812]
    dsimp only
    rw [matchCompression_eq, hdcl]
    dsimp only
    rw [hdul, matchKindNat_eq, hpl, matchOption_eq, matchOption_eq, hbl, hps, if_neg hlen]
    cases hcksum : d.checksum with
    | none =>
      dsimp only
      rw [tparam]
      dsimp only
      rw [hres]
    | crc32 =>
      dsimp only
      have hbl4 : 4 ≤ block_len := by
        rw [hcksum] at hbl
        simp only [if_pos] at hbl
        cases dcl with
        | none => simp only [Option.elim] at hbl; omega
        | some cl => simp only [Option.elim] at hbl; omega
      have tcrc : try_from_slice 4 (slice d.inner (block_len - 4) block_len) =
          .ok (slice d.inner (block_len - 4) block_len) :=
        try_from_slice_ok _ _ (by rw [slice_length _ _ _ (by omega)]; omega)
      rw [tcrc]
      dsimp only
      rw [hck hcksum, if_neg (by simp)]
      dsimp only
      rw [tparam]
      dsimp only
      rw [hres]
  constructor
  · intro e he
    exact core _ he
  · intro encoding he
    exact core _ he

/-- Any error from `Encoding.from_le_bytes` is `UnsupportedEncoding`. -/
theorem encoding_from_le_err (bytes : List Nat) (k : BlockKind) (e : BinaryGcodeError)
    (h : Encoding.from_le_bytes bytes k = .error e) :
    e = .unsupportedEncoding (leNat bytes) := by
  unfold Encoding.from_le_bytes at h
  dsimp only at h
  split at h <;> simp_all

/-- Characterisation of a successful `deserialise_file_header` run. -/
theorem deserialise_file_header_ok (d : Deserialiser) (cs : Checksum)
    (h10 : ¬ d.inner.length < 10)
    (hmagic : leNat (slice d.inner 0 4) = MAGIC)
    (hcv : leNat (slice d.inner 8 10) =
      (match cs with | Checksum.none => 0 | Checksum.crc32 => 1)) :
    d.deserialise_file_header =
      (.ok (.fileHeader
        { magic := MAGIC, version := leNat (slice d.inner 4 8), checksum := cs }),
       { inner := d.inner.drop 10, state := .block, checksum := cs }) := by
  have t04 : try_from_slice 4 (slice d.inner 0 4) = .ok (slice d.inner 0 4) :=
    try_from_slice_ok _ _ (by rw [slice_length _ _ _ (by omega)])
  have t48 : try_from_slice 4 (slice d.inner 4 8) = .ok (slice d.inner 4 8) :=
    try_from_slice_ok _ _ (by rw [slice_length _ _ _ (by omega)])
  have t810 : try_from_slice 2 (slice d.inner 8 10) = .ok (slice d.inner 8 10) :=
    try_from_slice_ok _ _ (by rw [slice_length _ _ _ (by omega)])
  unfold Deserialiser.deserialise_file_header
  rw [if_neg h10, t04]
  dsimp only
  rw [hmagic, if_neg (by simp)]
  rw [t48]
  dsimp only
  rw [t810]
  dsimp only
  rw [hcv]
  cases cs <;> dsimp only

/-! ### Reading fields out of a structured frame -/

theorem read_seg (p m rest : List Nat) (a n b : Nat)
    (hp : p.length = a) (hm : m.length = n) (hb : a + n = b) :
    slice (p ++ (m ++ rest)) a b = m := by
  subst hp hm hb
  rw [slice_of_append _ _ _ _ (Nat.le_refl _)]
  simp only [Nat.sub_self, Nat.add_sub_cancel_left]
  exact slice_zero_len m rest _ rfl

theorem read_seg2 (p m1 m2 rest : List Nat) (a n b : Nat)
    (hp : p.length = a) (hm : m1.length + m2.length = n) (hb : a + n = b) :
    slice (p ++ (m1 ++ (m2 ++ rest))) a b = m1 ++ m2 := by
  subst hb hp
  rw [slice_of_append _ _ _ _ (Nat.le_refl _)]
  rw [Nat.sub_self, Nat.add_sub_cancel_left, ← List.append_assoc]
  exact slice_zero_len _ rest _ (by rw [List.length_append, hm])

theorem read_last (p m : List Nat) (a n b : Nat)
    (hp : p.length = a) (hm : m.length = n) (hb : a + n = b) :
    slice (p ++ m) a b = m := by
  subst hp hm hb
  rw [slice_of_append _ _ _ _ (Nat.le_refl _)]
  rw [Nat.sub_self, Nat.add_sub_cancel_left]
  exact slice_full m _ rfl

/-! ### Serialiser output shapes -/

theorem serialise_block_shape_none (Cd : List Nat → List Nat)
    (Cs : Nat → Nat → List Nat → Except BinaryGcodeError (List Nat))
    (kind : BlockKind) (encoding : Encoding) (checksum : Checksum)
    (extra data : List Nat) :
    serialise_block Cd Cs kind .none encoding checksum extra data =
      .ok (let blk := kind.to_le_bytes ++ CompressionAlgorithm.to_le_bytes .none ++
             u32toLe data.length ++ (encoding.to_le_bytes ++ extra) ++ data
           if checksum = Checksum.crc32 then blk ++ u32toLe (crc32 blk) else blk) := by
  rfl

theorem serialise_block_shape_deflate (Cd : List Nat → List Nat)
    (Cs : Nat → Nat → List Nat → Except BinaryGcodeError (List Nat))
    (kind : BlockKind) (encoding : Encoding) (checksum : Checksum)
    (extra data : List Nat) :
    serialise_block Cd Cs kind .deflate encoding checksum extra data =
      .ok (let blk := kind.to_le_bytes ++ CompressionAlgorithm.to_le_bytes .deflate ++
             u32toLe data.length ++ u32toLe (Cd data).length ++
             (encoding.to_le_bytes ++ extra) ++ Cd data
           if checksum = Checksum.crc32 then blk ++ u32toLe (crc32 blk) else blk) := by
  rfl

theorem serialise_block_shape_hs (Cd : List Nat → List Nat)
    (Cs : Nat → Nat → List Nat → Except BinaryGcodeError (List Nat))
    (kind : BlockKind) (compression : CompressionAlgorithm) (encoding : Encoding)
    (checksum : Checksum) (extra data compressed : List Nat) (w l : Nat)
    (hwl : compression = .heatshrink11_4 ∧ w = 11 ∧ l = 4 ∨
           compression = .heatshrink12_4 ∧ w = 12 ∧ l = 4)
    (hcomp : Cs w l data = .ok compressed) :
    serialise_block Cd Cs kind compression encoding checksum extra data =
      .ok (let blk := kind.to_le_bytes ++ compression.to_le_bytes ++
             u32toLe data.length ++ u32toLe compressed.length ++
             (encoding.to_le_bytes ++ extra) ++ compressed
           if checksum = Checksum.crc32 then blk ++ u32toLe (crc32 blk) else blk) := by
  rcases hwl with ⟨rfl, rfl, rfl⟩ | ⟨rfl, rfl, rfl⟩ <;>
    · unfold serialise_block
      rw [hcomp]

/-! ### Enum encode/decode round trips -/

theorem blockKind_roundtrip (k : BlockKind) :
    BlockKind.from_le_bytes k.to_le_bytes = .ok k := by
  cases k <;> rfl

theorem compression_roundtrip (c : CompressionAlgorithm) :
    CompressionAlgorithm.from_le_bytes c.to_le_bytes = .ok c := by
  cases c <;> rfl

theorem encoding_roundtrip (k : BlockKind) (e : Encoding)
    (h : encodingValid k e = true) :
    Encoding.from_le_bytes e.to_le_bytes k = .ok e := by
  cases k <;> cases e <;> first | rfl | exact absurd h (by decide)

theorem blockKind_to_le_length (k : BlockKind) : k.to_le_bytes.length = 2 := by
  cases k <;> rfl

theorem compression_to_le_length (c : CompressionAlgorithm) : c.to_le_bytes.length = 2 := by
  cases c <;> rfl

theorem encoding_to_le_length (e : Encoding) : e.to_le_bytes.length = 2 := by
  cases e <;> rfl

/-! ### Parsing a serialised frame -/

theorem parse_frame_uncompressed (d : Deserialiser) (kind : BlockKind)
    (encoding : Encoding) (extra data blk : List Nat)
    (hcs : d.checksum = Checksum.crc32)
    (henc : encodingValid kind encoding = true)
    (hextra : extra.length = if kind = BlockKind.thumbnail then 4 else 0)
    (hlen32 : data.length < 2 ^ 32)
    (hblk : blk = BlockKind.to_le_bytes kind ++
      CompressionAlgorithm.to_le_bytes .none ++ u32toLe data.length ++
      (Encoding.to_le_bytes encoding ++ extra) ++ data)
    (hinner : d.inner = blk ++ u32toLe (crc32 blk)) :
    d.deserialise_block =
      (.ok (.block
        { kind := kind,
          data_compressed_len := Option.none,
          data_uncompressed_len := data.length,
          compression := .none,
          encoding := encoding,
          parameters := Encoding.to_le_bytes encoding ++ extra,
          data := data }),
       { d with inner := [] }) := by
  have lkb := blockKind_to_le_length kind
  have leb := encoding_to_le_length encoding
  have lblk : blk.length = 10 + extra.length + data.length := by
    subst hblk
    simp only [List.length_append, lkb, leb, compression_to_le_length, u32toLe_length]
    omega
  have hlinner : d.inner.length = 14 + extra.length + data.length := by
    rw [hinner]
    simp only [List.length_append, lblk, u32toLe_length]
    omega
  have r02 : slice d.inner 0 2 = BlockKind.to_le_bytes kind := by
    have hv : d.inner = BlockKind.to_le_bytes kind ++
        (CompressionAlgorithm.to_le_bytes .none ++ (u32toLe data.length ++
          ((Encoding.to_le_bytes encoding ++ extra) ++
            (data ++ u32toLe (crc32 blk))))) := by
      rw [hinner, hblk]
      simp [List.append_assoc]
    rw [hv]
    exact slice_zero_len _ _ _ lkb
  have r24 : slice d.inner 2 4 = CompressionAlgorithm.to_le_bytes .none := by
    have hv : d.inner = BlockKind.to_le_bytes kind ++
        (CompressionAlgorithm.to_le_bytes .none ++ (u32toLe data.length ++
          ((Encoding.to_le_bytes encoding ++ extra) ++
            (data ++ u32toLe (crc32 blk))))) := by
      rw [hinner, hblk]
      simp [List.append_assoc]
    rw [hv]
    exact read_seg _ _ _ 2 2 4 lkb (compression_to_le_length _) rfl
  have r48 : slice d.inner 4 8 = u32toLe data.length := by
    have hv : d.inner = (BlockKind.to_le_bytes kind ++
        CompressionAlgorithm.to_le_bytes .none) ++ (u32toLe data.length ++
          ((Encoding.to_le_bytes encoding ++ extra) ++
            (data ++ u32toLe (crc32 blk)))) := by
      rw [hinner, hblk]
      simp [List.append_assoc]
    rw [hv]
    exact read_seg _ _ _ 4 4 8
      (by simp [List.length_append, lkb, compression_to_le_length]) rfl rfl
  have r810 : slice d.inner 8 10 = Encoding.to_le_bytes encoding := by
    have hv : d.inner = (BlockKind.to_le_bytes kind ++
        CompressionAlgorithm.to_le_bytes .none ++ u32toLe data.length) ++
        (Encoding.to_le_bytes encoding ++ (extra ++ (data ++ u32toLe (crc32 blk)))) := by
      rw [hinner, hblk]
      simp [List.append_assoc]
    rw [hv]
    exact read_seg _ _ _ 8 2 10
      (by simp [List.length_append, lkb, compression_to_le_length, u32toLe_length])
      leb rfl
  have rparams : slice d.inner 8 (8 + (2 + extra.length)) =
      Encoding.to_le_bytes encoding ++ extra := by
    have hv : d.inner = (BlockKind.to_le_bytes kind ++
        CompressionAlgorithm.to_le_bytes .none ++ u32toLe data.length) ++
        (Encoding.to_le_bytes encoding ++ (extra ++ (data ++ u32toLe (crc32 blk)))) := by
      rw [hinner, hblk]
      simp [List.append_assoc]
    rw [hv]
    exact read_seg2 _ _ _ _ 8 (2 + extra.length) _
      (by simp [List.length_append, lkb, compression_to_le_length, u32toLe_length])
      (by omega) rfl
  have rdata : slice d.inner (8 + (2 + extra.length))
      (14 + extra.length + data.length - 4) = data := by
    have hv : d.inner = (BlockKind.to_le_bytes kind ++
        CompressionAlgorithm.to_le_bytes .none ++ u32toLe data.length ++
        (Encoding.to_le_bytes encoding ++ extra)) ++
        (data ++ u32toLe (crc32 blk)) := by
      rw [hinner, hblk]
      simp [List.append_assoc]
    rw [hv]
    exact read_seg _ _ _ _ data.length _
      (by simp [List.length_append, lkb, leb, compression_to_le_length, u32toLe_length]
          omega)
      rfl (by omega)
  have rcrc : slice d.inner (14 + extra.length + data.length - 4)
      (14 + extra.length + data.length) = u32toLe (crc32 blk) := by
    rw [hinner]
    exact read_last _ _ _ 4 _ (by omega) rfl (by omega)
  have rtake : d.inner.take (14 + extra.length + data.length - 4) = blk := by
    rw [hinner]
    exact List.take_left' (by omega)
  have rdrop : d.inner.drop (14 + extra.length + data.length) = [] := by
    apply List.drop_eq_nil_of_le
    omega
  have hres := deserialise_block_ok d kind .none encoding data.length Option.none
    (2 + extra.length) (14 + extra.length + data.length) 8
    (by omega)
    (by rw [r02]; exact blockKind_roundtrip kind)
    (by rw [r24]; exact compression_roundtrip .none)
    (by rw [r48]; exact leNat_u32toLe _ hlen32)
    (by rfl)
    (by by_cases hkt : kind = BlockKind.thumbnail <;> rw [hextra] <;> simp [hkt])
    (by rw [hcs]; simp [Option.elim]; omega)
    (by rfl)
    (by omega)
    (fun _ => by rw [rcrc, rtake]; exact leNat_u32toLe _ (crc32_lt blk))
    (by rw [r810]; exact encoding_roundtrip kind encoding henc)
  rw [hres, rparams, rdata, rdrop]

theorem parse_frame_compressed (d : Deserialiser) (kind : BlockKind)
    (compression : CompressionAlgorithm) (encoding : Encoding)
    (extra data comp blk : List Nat)
    (hcs : d.checksum = Checksum.crc32)
    (hne : compression ≠ CompressionAlgorithm.none)
    (henc : encodingValid kind encoding = true)
    (hextra : extra.length = if kind = BlockKind.thumbnail then 4 else 0)
    (hlen32 : data.length < 2 ^ 32)
    (hclen32 : comp.length < 2 ^ 32)
    (hblk : blk = BlockKind.to_le_bytes kind ++ compression.to_le_bytes ++
      u32toLe data.length ++ u32toLe comp.length ++
      (Encoding.to_le_bytes encoding ++ extra) ++ comp)
    (hinner : d.inner = blk ++ u32toLe (crc32 blk)) :
    d.deserialise_block =
      (.ok (.block
        { kind := kind,
          data_compressed_len := some comp.length,
          data_uncompressed_len := data.length,
          compression := compression,
          encoding := encoding,
          parameters := Encoding.to_le_bytes encoding ++ extra,
          data := comp }),
       { d with inner := [] }) := by
  have lkb := blockKind_to_le_length kind
  have leb := encoding_to_le_length encoding
  have lcb := compression_to_le_length compression
  have lblk : blk.length = 14 + extra.length + comp.length := by
    subst hblk
    simp only [List.length_append, lkb, leb, lcb, u32toLe_length]
    omega
  have hlinner : d.inner.length = 18 + extra.length + comp.length := by
    rw [hinner]
    simp only [List.length_append, lblk, u32toLe_length]
    omega
  have r02 : slice d.inner 0 2 = BlockKind.to_le_bytes kind := by
    have hv : d.inner = BlockKind.to_le_bytes kind ++
        (compression.to_le_bytes ++ (u32toLe data.length ++ (u32toLe comp.length ++
          ((Encoding.to_le_bytes encoding ++ extra) ++
            (comp ++ u32toLe (crc32 blk)))))) := by
      rw [hinner, hblk]
      simp [List.append_assoc]
    rw [hv]
    exact slice_zero_len _ _ _ lkb
  have r24 : slice d.inner 2 4 = compression.to_le_bytes := by
    have hv : d.inner = BlockKind.to_le_bytes kind ++
        (compression.to_le_bytes ++ (u32toLe data.length ++ (u32toLe comp.length ++
          ((Encoding.to_le_bytes encoding ++ extra) ++
            (comp ++ u32toLe (crc32 blk)))))) := by
      rw [hinner, hblk]
      simp [List.append_assoc]
    rw [hv]
    exact read_seg _ _ _ 2 2 4 lkb lcb rfl
  have r48 : slice d.inner 4 8 = u32toLe data.length := by
    have hv : d.inner = (BlockKind.to_le_bytes kind ++ compression.to_le_bytes) ++
        (u32toLe data.length ++ (u32toLe comp.length ++
          ((Encoding.to_le_bytes encoding ++ extra) ++
            (comp ++ u32toLe (crc32 blk))))) := by
      rw [hinner, hblk]
      simp [List.append_assoc]
    rw [hv]
    exact read_seg _ _ _ 4 4 8 (by simp [List.length_append, lkb, lcb]) rfl rfl
  have r812 : slice d.inner 8 12 = u32toLe comp.length := by
    have hv : d.inner = (BlockKind.to_le_bytes kind ++ compression.to_le_bytes ++
        u32toLe data.length) ++ (u32toLe comp.length ++
          ((Encoding.to_le_bytes encoding ++ extra) ++
            (comp ++ u32toLe (crc32 blk)))) := by
      rw [hinner, hblk]
      simp [List.append_assoc]
    rw [hv]
    exact read_seg _ _ _ 8 4 12
      (by simp [List.length_append, lkb, lcb, u32toLe_length]) rfl rfl
  have r1214 : slice d.inner 12 14 = Encoding.to_le_bytes encoding := by
    have hv : d.inner = (BlockKind.to_le_bytes kind ++ compression.to_le_bytes ++
        u32toLe data.length ++ u32toLe comp.length) ++
        (Encoding.to_le_bytes encoding ++ (extra ++ (comp ++ u32toLe (crc32 blk)))) := by
      rw [hinner, hblk]
      simp [List.append_assoc]
    rw [hv]
    exact read_seg _ _ _ 12 2 14
      (by simp [List.length_append, lkb, lcb, u32toLe_length]) leb rfl
  have rparams : slice d.inner 12 (12 + (2 + extra.length)) =
      Encoding.to_le_bytes encoding ++ extra := by
    have hv : d.inner = (BlockKind.to_le_bytes kind ++ compression.to_le_bytes ++
        u32toLe data.length ++ u32toLe comp.length) ++
        (Encoding.to_le_bytes encoding ++ (extra ++ (comp ++ u32toLe (crc32 blk)))) := by
      rw [hinner, hblk]
      simp [List.append_assoc]
    rw [hv]
    exact read_seg2 _ _ _ _ 12 (2 + extra.length) _
      (by simp [List.length_append, lkb, lcb, u32toLe_length]) (by omega) rfl
  have rdata : slice d.inner (12 + (2 + extra.length))
      (18 + extra.length + comp.length - 4) = comp := by
    have hv : d.inner = (BlockKind.to_le_bytes kind ++ compression.to_le_bytes ++
        u32toLe data.length ++ u32toLe comp.length ++
        (Encoding.to_le_bytes encoding ++ extra)) ++
        (comp ++ u32toLe (crc32 blk)) := by
      rw [hinner, hblk]
      simp [List.append_assoc]
    rw [hv]
    exact read_seg _ _ _ _ comp.length _
      (by simp [List.length_append, lkb, lcb, leb, u32toLe_length]
          omega)
      rfl (by omega)
  have rcrc : slice d.inner (18 + extra.length + comp.length - 4)
      (18 + extra.length + comp.length) = u32toLe (crc32 blk) := by
    rw [hinner]
    exact read_last _ _ _ 4 _ (by omega) rfl (by omega)
  have rtake : d.inner.take (18 + extra.length + comp.length - 4) = blk := by
    rw [hinner]
    exact List.take_left' (by omega)
  have rdrop : d.inner.drop (18 + extra.length + comp.length) = [] := by
    apply List.drop_eq_nil_of_le
    omega
  have hres := deserialise_block_ok d kind compression encoding data.length
    (some comp.length) (2 + extra.length) (18 + extra.length + comp.length) 12
    (by omega)
    (by rw [r02]; exact blockKind_roundtrip kind)
    (by rw [r24]; exact compression_roundtrip compression)
    (by rw [r48]; exact leNat_u32toLe _ hlen32)
    (by rw [if_neg hne, r812, leNat_u32toLe _ hclen32])
    (by by_cases hkt : kind = BlockKind.thumbnail <;> rw [hextra] <;> simp [hkt])
    (by rw [hcs]; simp [Option.elim]; omega)
    (by rfl)
    (by omega)
    (fun _ => by rw [rcrc, rtake]; exact leNat_u32toLe _ (crc32_lt blk))
    (by rw [r1214]; exact encoding_roundtrip kind encoding henc)
  rw [hres, rparams, rdata, rdrop]

theorem parse_serialised_header (d0 : Deserialiser) (version : Nat) (cs : Checksum)
    (rest : List Nat)
    (hst : d0.state = .fileHeader)
    (hver : version < 2 ^ 32)
    (hinner : d0.inner = serialise_file_header version cs ++ rest) :
    d0.deserialise = (.ok (.fileHeader { magic := MAGIC, version := version, checksum := cs }),
      { inner := rest, state := .block, checksum := cs }) := by
  have hd : d0.deserialise = d0.deserialise_file_header := by
    unfold Deserialiser.deserialise
    rw [hst]
  have lcs : (Checksum.to_le_bytes cs).length = 2 := by cases cs <;> rfl
  unfold serialise_file_header at hinner
  have hlinner : d0.inner.length = 10 + rest.length := by
    rw [hinner]
    simp only [List.length_append, u32toLe_length, lcs]
    try omega
  have hv : d0.inner = u32toLe MAGIC ++ (u32toLe version ++
      (Checksum.to_le_bytes cs ++ rest)) := by
    rw [hinner]
    simp [List.append_assoc]
  have r04 : slice d0.inner 0 4 = u32toLe MAGIC := by
    rw [hv]
    exact slice_zero_len _ _ _ rfl
  have r48 : slice d0.inner 4 8 = u32toLe version := by
    rw [hv]
    exact read_seg _ _ _ 4 4 8 rfl rfl rfl
  have r810 : slice d0.inner 8 10 = Checksum.to_le_bytes cs := by
    have hv2 : d0.inner = (u32toLe MAGIC ++ u32toLe version) ++
        (Checksum.to_le_bytes cs ++ rest) := by
      rw [hinner]
      simp [List.append_assoc]
    rw [hv2]
    exact read_seg _ _ _ 8 2 10 rfl lcs rfl
  have rdrop : d0.inner.drop 10 = rest := by
    have hv2 : d0.inner = (u32toLe MAGIC ++ (u32toLe version ++
        Checksum.to_le_bytes cs)) ++ rest := by
      rw [hinner]
      simp [List.append_assoc]
    rw [hv2]
    exact List.drop_left' (by simp [List.length_append, lcs, u32toLe_length])
  have hres := deserialise_file_header_ok d0 cs
    (by omega)
    (by rw [r04]; exact leNat_u32toLe _ (by norm_num [MAGIC]))
    (by rw [r810]; cases cs <;> rfl)
  rw [hd, hres]
  simp only [rdrop, r48, leNat_u32toLe _ hver]

/-! ### Chunk independence of the drain loop -/

/-- A `MoreBytesRequired` report leaves the deserialiser unchanged. -/
theorem deserialise_more_id : ∀ (d : Deserialiser) (n : Nat) (d2 : Deserialiser),
    d.deserialise = (.ok (.moreBytesRequired n), d2) → d2 = d := by
  rintro ⟨inner, state, checksum⟩ n d2 h
  cases state
  case fileHeader =>
    simp only [Deserialiser.deserialise] at h
    unfold Deserialiser.deserialise_file_header at h
    iterate 8 (all_goals (try (split at h)))
    all_goals try simp_all
    iterate 4 (all_goals (try (split at h)); all_goals (try simp_all))
  case block =>
    simp only [Deserialiser.deserialise] at h
    unfold Deserialiser.deserialise_block at h
    iterate 12 (all_goals (try (split at h)))
    all_goals try simp_all
    iterate 6 (all_goals (try (split at h)); all_goals (try simp_all))

/-- `deserialise_block` never emits a file-header event. -/
theorem deserialise_block_no_fileheader : ∀ (d : Deserialiser)
    (fh : DeserialisedFileHeader) (d2 : Deserialiser),
    d.deserialise_block = (.ok (.fileHeader fh), d2) → False := by
  rintro ⟨inner, state, checksum⟩ fh d2 h
  unfold Deserialiser.deserialise_block at h
  iterate 12 (all_goals (try (split at h)))
  all_goals try simp_all
  iterate 6 (all_goals (try (split at h)); all_goals (try simp_all))

/-- Inversion of a successful `deserialise_block` run: the parse artefacts
are recovered from the result. -/
theorem deserialise_block_ok_inv (d : Deserialiser) (b : DeserialisedBlock)
    (d' : Deserialiser) (h : d.deserialise_block = (.ok (.block b), d')) :
    ∃ param_len block_len param_start : Nat,
      ¬ d.inner.length < 12 ∧
      BlockKind.from_le_bytes (slice d.inner 0 2) = .ok b.kind ∧
      CompressionAlgorithm.from_le_bytes (slice d.inner 2 4) = .ok b.compression ∧
      leNat (slice d.inner 4 8) = b.data_uncompressed_len ∧
      (if b.compression = CompressionAlgorithm.none then Except.ok Option.none
       else Except.ok (Option.some (leNat (slice d.inner 8 12)))) =
        (Except.ok b.data_compressed_len : Except BinaryGcodeError (Option Nat)) ∧
      (if b.kind = BlockKind.thumbnail then (6 : Nat) else 2) = param_len ∧
      b.data_compressed_len.elim (8 + param_len + b.data_uncompressed_len)
          (fun cl => 12 + param_len + cl) +
        (if d.checksum = Checksum.crc32 then 4 else 0) = block_len ∧
      b.data_compressed_len.elim (8 : Nat) (fun _ => 12) = param_start ∧
      ¬ d.inner.length < block_len ∧
      (d.checksum = Checksum.crc32 →
        leNat (slice d.inner (block_len - 4) block_len) =
          crc32 (d.inner.take (block_len - 4))) ∧
      Encoding.from_le_bytes (slice d.inner param_start (param_start + 2)) b.kind =
        .ok b.encoding ∧
      b.parameters = slice d.inner param_start (param_start + param_len) ∧
      b.data = slice d.inner (param_start + param_len) (block_len - 4) ∧
      d' = { d with inner := d.inner.drop block_len } := by
  by_cases h12 : d.inner.length < 12
  · unfold Deserialiser.deserialise_block at h
    rw [if_pos h12] at h
    simp at h
  have t02 : try_from_slice 2 (slice d.inner 0 2) = .ok (slice d.inner 0 2) :=
    try_from_slice_ok _ _ (by rw [slice_length _ _ _ (by omega)])
  have t24 : try_from_slice 2 (slice d.inner 2 4) = .ok (slice d.inner 2 4) :=
    try_from_slice_ok _ _ (by rw [slice_length _ _ _ (by omega)])
  have t48 : try_from_slice 4 (slice d.inner 4 8) = .ok (slice d.inner 4 8) :=
    try_from_slice_ok _ _ (by rw [slice_length _ _ _ (by omega)])
  have t812 : try_from_slice 4 (slice d.inner 8 12) = .ok (slice d.inner 8 12) :=
    try_from_slice_ok _ _ (by rw [slice_length _ _ _ (by omega)])
  unfold Deserialiser.deserialise_block at h
  rw [if_neg h12, t02] at h
  try dsimp only at h
  rcases hk : BlockKind.from_le_bytes (slice d.inner 0 2) with e | kind
  · rw [hk] at h; simp at h
  rw [hk] at h
  try dsimp only at h
  rw [t24] at h
  try dsimp only at h
  rcases hc : CompressionAlgorithm.from_le_bytes (slice d.inner 2 4) with e | compression
  · rw [hc] at h; simp at h
  rw [hc] at h
  try dsimp only at h
  rw [t48] at h
  try dsimp only at h
  rw [t812] at h
  try dsimp only at h
  rw [matchCompression_eq] at h
  by_cases hcn : compression = CompressionAlgorithm.none
  · rw [if_pos hcn] at h
    try dsimp only at h
    rw [matchKindNat_eq] at h
    generalize hDU : leNat (slice d.inner 4 8) = DU at h
    generalize hPL : (if kind = BlockKind.thumbnail then (6 : Nat) else 2) = PL at h
    generalize hCK : (if d.checksum = Checksum.crc32 then (4 : Nat) else 0) = CK at h
    cases hcs : d.checksum
    ·
      have hCK0 : CK = 0 := by rw [← hCK, hcs]; decide
      subst hCK0
      rw [hcs] at h
      try dsimp only at h
      by_cases hlen : d.inner.length < 8 + PL + DU + 0
      · rw [if_pos hlen] at h; simp at h
      rw [if_neg hlen] at h
      try dsimp only at h
      have hPL2 : 2 ≤ PL := by rw [← hPL]; split <;> omega
      have tp : try_from_slice 2 (slice d.inner 8 (8 + 2)) =
          .ok (slice d.inner 8 (8 + 2)) :=
        try_from_slice_ok _ _ (by rw [slice_length _ _ _ (by omega)])
      rw [tp] at h
      try dsimp only at h
      rcases henc : Encoding.from_le_bytes (slice d.inner 8 (8 + 2)) kind with e | enc
      · rw [henc] at h; simp at h
      rw [henc] at h
      try dsimp only at h
      rw [Prod.mk.injEq] at h
      obtain ⟨hb, hd'⟩ := h
      simp only [Except.ok.injEq, DeserialisedResult.block.injEq] at hb
      subst hb
      subst hd'
      refine ⟨PL, 8 + PL + DU + 0, 8, h12, rfl, rfl, rfl, ?_, hPL, rfl, rfl, hlen,
        ?_, henc, rfl, rfl, rfl⟩
      · simp [hcn]
      · intro hx; exact absurd hx (by decide)
    ·
      have hCK4 : CK = 4 := by rw [← hCK, hcs]; decide
      subst hCK4
      rw [hcs] at h
      try dsimp only at h
      by_cases hlen : d.inner.length < 8 + PL + DU + 4
      · rw [if_pos hlen] at h; simp at h
      rw [if_neg hlen] at h
      try dsimp only at h
      have tc : try_from_slice 4
          (slice d.inner (8 + PL + DU + 4 - 4) (8 + PL + DU + 4)) =
          .ok (slice d.inner (8 + PL + DU + 4 - 4) (8 + PL + DU + 4)) :=
        try_from_slice_ok _ _ (by rw [slice_length _ _ _ (by omega)]; omega)
      rw [tc] at h
      try dsimp only at h
      by_cases hcrc : leNat (slice d.inner (8 + PL + DU + 4 - 4) (8 + PL + DU + 4)) ≠
          crc32 (d.inner.take (8 + PL + DU + 4 - 4))
      · rw [if_pos hcrc] at h; simp at h
      rw [if_neg hcrc] at h
      try dsimp only at h
      have hPL2 : 2 ≤ PL := by rw [← hPL]; split <;> omega
      have tp : try_from_slice 2 (slice d.inner 8 (8 + 2)) =
          .ok (slice d.inner 8 (8 + 2)) :=
        try_from_slice_ok _ _ (by rw [slice_length _ _ _ (by omega)])
      rw [tp] at h
      try dsimp only at h
      rcases henc : Encoding.from_le_bytes (slice d.inner 8 (8 + 2)) kind with e | enc
      · rw [henc] at h; simp at h
      rw [henc] at h
      try dsimp only at h
      rw [Prod.mk.injEq] at h
      obtain ⟨hb, hd'⟩ := h
      simp only [Except.ok.injEq, DeserialisedResult.block.injEq] at hb
      subst hb
      subst hd'
      refine ⟨PL, 8 + PL + DU + 4, 8, h12, rfl, rfl, rfl, ?_, hPL, rfl, rfl, hlen,
        ?_, henc, rfl, rfl, rfl⟩
      · simp [hcn]
      · intro hx; exact not_not.mp hcrc
  · rw [if_neg hcn] at h
    try dsimp only at h
    rw [matchKindNat_eq] at h
    generalize hDU : leNat (slice d.inner 4 8) = DU at h
    generalize hCL : leNat (slice d.inner 8 12) = CL at h
    generalize hPL : (if kind = BlockKind.thumbnail then (6 : Nat) else 2) = PL at h
    generalize hCK : (if d.checksum = Checksum.crc32 then (4 : Nat) else 0) = CK at h
    cases hcs : d.checksum
    ·
      have hCK0 : CK = 0 := by rw [← hCK, hcs]; decide
      subst hCK0
      rw [hcs] at h
      try dsimp only at h
      by_cases hlen : d.inner.length < 12 + PL + CL + 0
      · rw [if_pos hlen] at h; simp at h
      rw [if_neg hlen] at h
      try dsimp only at h
      have hPL2 : 2 ≤ PL := by rw [← hPL]; split <;> omega
      have tp : try_from_slice 2 (slice d.inner 12 (12 + 2)) =
          .ok (slice d.inner 12 (12 + 2)) :=
        try_from_slice_ok _ _ (by rw [slice_length _ _ _ (by omega)])
      rw [tp] at h
      try dsimp only at h
      rcases henc : Encoding.from_le_bytes (slice d.inner 12 (12 + 2)) kind with e | enc
      · rw [henc] at h; simp at h
      rw [henc] at h
      try dsimp only at h
      rw [Prod.mk.injEq] at h
      obtain ⟨hb, hd'⟩ := h
      simp only [Except.ok.injEq, DeserialisedResult.block.injEq] at hb
      subst hb
      subst hd'
      refine ⟨PL, 12 + PL + CL + 0, 12, h12, rfl, rfl, rfl, ?_, hPL, rfl, rfl, hlen,
        ?_, henc, rfl, rfl, rfl⟩
      · simp [hcn]
      · intro hx; exact absurd hx (by decide)
    ·
      have hCK4 : CK = 4 := by rw [← hCK, hcs]; decide
      subst hCK4
      rw [hcs] at h
      try dsimp only at h
      by_cases hlen : d.inner.length < 12 + PL + CL + 4
      · rw [if_pos hlen] at h; simp at h
      rw [if_neg hlen] at h
      try dsimp only at h
      have tc : try_from_slice 4
          (slice d.inner (12 + PL + CL + 4 - 4) (12 + PL + CL + 4)) =
          .ok (slice d.inner (12 + PL + CL + 4 - 4) (12 + PL + CL + 4)) :=
        try_from_slice_ok _ _ (by rw [slice_length _ _ _ (by omega)]; omega)
      rw [tc] at h
      try dsimp only at h
      by_cases hcrc : leNat (slice d.inner (12 + PL + CL + 4 - 4) (12 + PL + CL + 4)) ≠
          crc32 (d.inner.take (12 + PL + CL + 4 - 4))
      · rw [if_pos hcrc] at h; simp at h
      rw [if_neg hcrc] at h
      try dsimp only at h
      have hPL2 : 2 ≤ PL := by rw [← hPL]; split <;> omega
      have tp : try_from_slice 2 (slice d.inner 12 (12 + 2)) =
          .ok (slice d.inner 12 (12 + 2)) :=
        try_from_slice_ok _ _ (by rw [slice_length _ _ _ (by omega)])
      rw [tp] at h
      try dsimp only at h
      rcases henc : Encoding.from_le_bytes (slice d.inner 12 (12 + 2)) kind with e | enc
      · rw [henc] at h; simp at h
      rw [henc] at h
      try dsimp only at h
      rw [Prod.mk.injEq] at h
      obtain ⟨hb, hd'⟩ := h
      simp only [Except.ok.injEq, DeserialisedResult.block.injEq] at hb
      subst hb
      subst hd'
      refine ⟨PL, 12 + PL + CL + 4, 12, h12, rfl, rfl, rfl, ?_, hPL, rfl, rfl, hlen,
        ?_, henc, rfl, rfl, rfl⟩
      · simp [hcn]
      · intro hx; exact not_not.mp hcrc

/-- Appending further bytes to the pending buffer commutes with an already
completed block parse. -/
theorem deserialise_block_extend (d : Deserialiser) (s2 : List Nat)
    (b : DeserialisedBlock) (d' : Deserialiser)
    (h : d.deserialise_block = (.ok (.block b), d')) :
    (d.digest s2).deserialise_block = (.ok (.block b), d'.digest s2) := by
  obtain ⟨PL, BL, PS, h12, hk, hc, hdul, hdcl, hpl, hbl, hps, hlen, hck, henc,
    hparams, hdata, hd'⟩ := deserialise_block_ok_inv d b d' h
  have hPL2 : 2 ≤ PL := by rw [← hpl]; split <;> omega
  have hPSPL : PS + PL ≤ BL ∧ PS + 2 ≤ BL := by
    cases hx : b.data_compressed_len <;> rw [hx] at hbl hps <;>
      simp only [Option.elim] at hbl hps <;> omega
  have hBLle : BL ≤ d.inner.length := by omega
  have s02 : slice (d.inner ++ s2) 0 2 = slice d.inner 0 2 :=
    slice_append_of_le d.inner s2 0 2 (by omega)
  have s24 : slice (d.inner ++ s2) 2 4 = slice d.inner 2 4 :=
    slice_append_of_le d.inner s2 2 4 (by omega)
  have s48 : slice (d.inner ++ s2) 4 8 = slice d.inner 4 8 :=
    slice_append_of_le d.inner s2 4 8 (by omega)
  have s812 : slice (d.inner ++ s2) 8 12 = slice d.inner 8 12 :=
    slice_append_of_le d.inner s2 8 12 (by omega)
  have sBL4 : slice (d.inner ++ s2) (BL - 4) BL = slice d.inner (BL - 4) BL :=
    slice_append_of_le d.inner s2 (BL - 4) BL (by omega)
  have stake : (d.inner ++ s2).take (BL - 4) = d.inner.take (BL - 4) :=
    List.take_append_of_le_length (by omega)
  have sPS2 : slice (d.inner ++ s2) PS (PS + 2) = slice d.inner PS (PS + 2) :=
    slice_append_of_le d.inner s2 PS (PS + 2) (by omega)
  have sPSPL : slice (d.inner ++ s2) PS (PS + PL) = slice d.inner PS (PS + PL) :=
    slice_append_of_le d.inner s2 PS (PS + PL) (by omega)
  have sdata : slice (d.inner ++ s2) (PS + PL) (BL - 4) =
      slice d.inner (PS + PL) (BL - 4) :=
    slice_append_of_le d.inner s2 (PS + PL) (BL - 4) (by omega)
  have sdrop : (d.inner ++ s2).drop BL = d.inner.drop BL ++ s2 :=
    List.drop_append_of_le_length (by omega)
  have hres := deserialise_block_ok (d.digest s2) b.kind b.compression b.encoding
    b.data_uncompressed_len b.data_compressed_len PL BL PS
    (by simp only [digest_inner, List.length_append]; omega)
    (by rw [digest_inner, s02]; exact hk)
    (by rw [digest_inner, s24]; exact hc)
    (by rw [digest_inner, s48]; exact hdul)
    (by rw [digest_inner, s812]; exact hdcl)
    hpl
    (by rw [digest_checksum]; exact hbl)
    hps
    (by simp only [digest_inner, List.length_append]; omega)
    (by intro hx
        rw [digest_checksum] at hx
        rw [digest_inner, sBL4, stake]
        exact hck hx)
    (by rw [digest_inner, sPS2]; exact henc)
  rw [hres, hd']
  simp only [digest_inner, sPSPL, sdata, sdrop, ← hparams, ← hdata]
  rfl

/-- Appending further bytes commutes with any completed `deserialise` step
that emitted an event (file header or block). -/
theorem deserialise_extend (d : Deserialiser) (s2 : List Nat)
    (r : DeserialisedResult) (d' : Deserialiser)
    (hnm : ∀ n, r ≠ .moreBytesRequired n)
    (h : d.deserialise = (.ok r, d')) :
    (d.digest s2).deserialise = (.ok r, d'.digest s2) := by
  cases hst : d.state
  case fileHeader =>
    have hstep : d.deserialise = d.deserialise_file_header := by
      unfold Deserialiser.deserialise
      rw [hst]
    have hstep2 : (d.digest s2).deserialise = (d.digest s2).deserialise_file_header := by
      unfold Deserialiser.deserialise
      rw [digest_state, hst]
    rw [hstep] at h
    rw [hstep2]
    exact deserialise_file_header_extend d s2 (.ok r) d'
      (fun n hn => hnm n (Except.ok.inj hn)) h
  case block =>
    have hstep : d.deserialise = d.deserialise_block := by
      unfold Deserialiser.deserialise
      rw [hst]
    have hstep2 : (d.digest s2).deserialise = (d.digest s2).deserialise_block := by
      unfold Deserialiser.deserialise
      rw [digest_state, hst]
    rw [hstep] at h
    rw [hstep2]
    cases r with
    | fileHeader fh => exact absurd h (fun hc => deserialise_block_no_fileheader d fh d' hc)
    | moreBytesRequired n => exact absurd rfl (hnm n)
    | block b => exact deserialise_block_extend d s2 b d' h

/-- Unexhausted drain runs are stable under extra fuel. -/
theorem drainFuel_mono : ∀ (f g : Nat) (d : Deserialiser)
    (r : Except BinaryGcodeError (List Event × Nat × Deserialiser)),
    f ≤ g → drainFuel f d = some r → drainFuel g d = some r := by
  intro f
  induction f with
  | zero =>
    intro g d r _ h
    simp [drainFuel] at h
  | succ f ih =>
    intro g d r hle h
    obtain ⟨g', rfl⟩ : ∃ g', g = g' + 1 := ⟨g - 1, by omega⟩
    unfold drainFuel at h ⊢
    rcases hd : d.deserialise with ⟨rr, d'⟩
    rw [hd] at h
    cases rr with
    | error e => exact h
    | ok res =>
      cases res with
      | moreBytesRequired n => exact h
      | fileHeader fh =>
        dsimp only at h ⊢
        rcases hf : drainFuel f d' with _ | r'
        · rw [hf] at h
          simp at h
        · rw [hf] at h
          rw [ih g' d' r' (by omega) hf]
          exact h
      | block b =>
        dsimp only at h ⊢
        rcases hf : drainFuel f d' with _ | r'
        · rw [hf] at h
          simp at h
        · rw [hf] at h
          rw [ih g' d' r' (by omega) hf]
          exact h

/-- Draining, feeding more bytes and draining again composes: the first
drain's events prefix the second's. -/
theorem drainFuel_digest : ∀ (f1 : Nat) (d : Deserialiser) (E1 : List Event)
    (n1 : Nat) (d1 : Deserialiser),
    drainFuel f1 d = some (.ok (E1, n1, d1)) →
    ∀ (f2 : Nat) (s2 : List Nat) (E2 : List Event) (n2 : Nat) (d2 : Deserialiser),
    drainFuel f2 (d1.digest s2) = some (.ok (E2, n2, d2)) →
    drainFuel (f1 + f2) (d.digest s2) = some (.ok (E1 ++ E2, n2, d2)) := by
  intro f1
  induction f1 with
  | zero =>
    intro d E1 n1 d1 h1
    simp [drainFuel] at h1
  | succ f ih =>
    intro d E1 n1 d1 h1 f2 s2 E2 n2 d2 h2
    rw [show f + 1 + f2 = f + f2 + 1 by omega]
    unfold drainFuel at h1
    rcases hd : d.deserialise with ⟨rr, d'⟩
    rw [hd] at h1
    cases rr with
    | error e => simp at h1
    | ok res =>
      cases res with
      | moreBytesRequired n =>
        dsimp only at h1
        rw [Option.some.injEq, Except.ok.injEq, Prod.mk.injEq] at h1
        obtain ⟨hE1, h1'⟩ := h1
        rw [Prod.mk.injEq] at h1'
        obtain ⟨hn1, hd1⟩ := h1'
        subst hE1
        subst hn1
        subst hd1
        have hdd : d' = d := deserialise_more_id d n d' hd
        subst hdd
        simp only [List.nil_append]
        exact drainFuel_mono f2 (f + f2 + 1) (d'.digest s2) _ (by omega) h2
      | fileHeader fh =>
        dsimp only at h1
        rcases hf : drainFuel f d' with _ | r'
        · rw [hf] at h1
          simp at h1
        rcases r' with e | ⟨TE, tn, td⟩
        · rw [hf] at h1
          simp [Except.map] at h1
        rw [hf] at h1
        dsimp only [Option.map, Except.map] at h1
        rw [Option.some.injEq, Except.ok.injEq, Prod.mk.injEq] at h1
        obtain ⟨hE1, h1'⟩ := h1
        rw [Prod.mk.injEq] at h1'
        obtain ⟨hn1, hd1⟩ := h1'
        subst hE1
        subst hn1
        subst hd1
        have hext := deserialise_extend d s2 (.fileHeader fh) d'
          (by intro n hn; cases hn) hd
        have hIH := ih d' TE tn td hf f2 s2 E2 n2 d2 h2
        unfold drainFuel
        rw [hext]
        dsimp only
        rw [hIH]
        dsimp only [Option.map, Except.map]
        rw [List.cons_append]
      | block b =>
        dsimp only at h1
        rcases hf : drainFuel f d' with _ | r'
        · rw [hf] at h1
          simp at h1
        rcases r' with e | ⟨TE, tn, td⟩
        · rw [hf] at h1
          simp [Except.map] at h1
        rw [hf] at h1
        dsimp only [Option.map, Except.map] at h1
        rw [Option.some.injEq, Except.ok.injEq, Prod.mk.injEq] at h1
        obtain ⟨hE1, h1'⟩ := h1
        rw [Prod.mk.injEq] at h1'
        obtain ⟨hn1, hd1⟩ := h1'
        subst hE1
        subst hn1
        subst hd1
        have hext := deserialise_extend d s2 (.block b) d'
          (by intro n hn; cases hn) hd
        have hIH := ih d' TE tn td hf f2 s2 E2 n2 d2 h2
        unfold drainFuel
        rw [hext]
        dsimp only
        rw [hIH]
        dsimp only [Option.map, Except.map]
        rw [List.cons_append]

/-! ### Single-byte flips: list surgery toolbox -/

theorem take_set_of_le (l : List Nat) (p v m : Nat) (h : m ≤ p) :
    (l.set p v).take m = l.take m := by
  apply List.ext_getElem?
  intro i
  rw [List.getElem?_take, List.getElem?_take]
  by_cases hi : i < m
  · simp only [if_pos hi]
    rw [List.getElem?_set_ne (by omega)]
  · simp only [if_neg hi]

theorem slice_set_of_le (l : List Nat) (p v a b : Nat) (h : b ≤ p) :
    slice (l.set p v) a b = slice l a b := by
  apply List.ext_getElem?
  intro i
  unfold slice
  rw [List.getElem?_take, List.getElem?_take]
  by_cases hi : i < b - a
  · simp only [if_pos hi]
    rw [List.getElem?_drop, List.getElem?_drop, List.getElem?_set_ne (by omega)]
  · simp only [if_neg hi]

theorem slice_set_of_lt (l : List Nat) (p v a b : Nat) (h : p < a) :
    slice (l.set p v) a b = slice l a b := by
  apply List.ext_getElem?
  intro i
  unfold slice
  rw [List.getElem?_take, List.getElem?_take]
  by_cases hi : i < b - a
  · simp only [if_pos hi]
    rw [List.getElem?_drop, List.getElem?_drop, List.getElem?_set_ne (by omega)]
  · simp only [if_neg hi]

theorem take_set_comm (l : List Nat) (p v m : Nat) (hpm : p < m) (hpl : p < l.length) :
    (l.set p v).take m = (l.take m).set p v := by
  apply List.ext_getElem?
  intro i
  by_cases hip : i = p
  · subst hip
    rw [List.getElem?_take, if_pos hpm, List.getElem?_set_self hpl,
      List.getElem?_set_self (by rw [List.length_take]; omega)]
  · by_cases him : i < m
    · rw [List.getElem?_take, if_pos him, List.getElem?_set_ne (by omega),
        List.getElem?_set_ne (by omega), List.getElem?_take, if_pos him]
    · rw [List.getElem?_take, if_neg him, List.getElem?_set_ne (by omega),
        List.getElem?_take, if_neg him]

theorem slice_set_inside (l : List Nat) (p v a b : Nat) (ha : a ≤ p) (hb : p < b)
    (hpl : p < l.length) :
    slice (l.set p v) a b = (slice l a b).set (p - a) v := by
  apply List.ext_getElem?
  intro i
  unfold slice
  by_cases hi : i < b - a
  · by_cases hip : a + i = p
    · have hi' : i = p - a := by omega
      subst hi'
      rw [List.getElem?_take, if_pos hi, List.getElem?_drop,
        show a + (p - a) = p from by omega, List.getElem?_set_self hpl,
        List.getElem?_set_self (by rw [List.length_take, List.length_drop]; omega)]
    · rw [List.getElem?_take, if_pos hi, List.getElem?_drop,
        List.getElem?_set_ne (show p ≠ a + i from by omega),
        List.getElem?_set_ne (show p - a ≠ i from by omega),
        List.getElem?_take, if_pos hi, List.getElem?_drop]
  · rw [List.getElem?_take, if_neg hi,
      List.getElem?_set_ne (show p - a ≠ i from by omega),
      List.getElem?_take, if_neg hi]

theorem getD_take (l : List Nat) (m p : Nat) (h : p < m) :
    (l.take m).getD p 0 = l.getD p 0 := by
  rw [List.getD_eq_getElem?_getD, List.getD_eq_getElem?_getD, List.getElem?_take,
    if_pos h]

theorem slice_getD (l : List Nat) (a b i : Nat) (h : i < b - a) :
    (slice l a b).getD i 0 = l.getD (a + i) 0 := by
  unfold slice
  rw [List.getD_eq_getElem?_getD, List.getD_eq_getElem?_getD, List.getElem?_take,
    if_pos h, List.getElem?_drop]

theorem getD_cons_decomp : ∀ (L : List Nat) (p : Nat), p < L.length →
    L = L.take p ++ L.getD p 0 :: L.drop (p + 1) := by
  intro L
  induction L with
  | nil => intro p h; simp at h
  | cons x t ih =>
    intro p h
    cases p with
    | zero => simp
    | succ q =>
      have hq : q < t.length := by simpa using h
      have ht := ih q hq
      simp only [List.take_succ_cons, List.getD_cons_succ, List.drop_succ_cons,
        List.cons_append]
      exact congrArg (x :: ·) ht

/-- A flipped byte changes the little-endian value of a buffer. -/
theorem leNat_set_ne : ∀ (L : List Nat) (p v : Nat), p < L.length →
    v ≠ L.getD p 0 → leNat (L.set p v) ≠ leNat L := by
  intro L
  induction L with
  | nil => intro p v h _; simp at h
  | cons x t ih =>
    intro p v hp hne
    cases p with
    | zero =>
      have hx : (x :: t).getD 0 0 = x := rfl
      rw [hx] at hne
      show leNat (v :: t) ≠ leNat (x :: t)
      simp only [leNat, List.foldr]
      omega
    | succ q =>
      have hq : q < t.length := by simpa using hp
      have hne' : v ≠ t.getD q 0 := by simpa using hne
      have hih := ih q v hq hne'
      show leNat (x :: t.set q v) ≠ leNat (x :: t)
      simp only [leNat, List.foldr] at hih ⊢
      omega

/-! ### Claim theorems -/

/-- C1: serialising a file header (checksum Crc32) and any legal block and
digesting the result yields, on successive `deserialise` calls, first the
file header and then a block agreeing with the input on kind, compression,
encoding, parameters and payload (after decompression).  The external
compressors enter as abstract functions; the hypotheses `hdef`/`hhs11`/
`hhs12` state the decompress-inverts-compress contract of the external
codecs for the compression actually used. -/
theorem C1_serialise_deserialise_roundtrip
    (Cd : List Nat → List Nat)
    (Cs : Nat → Nat → List Nat → Except BinaryGcodeError (List Nat))
    (zlib : List Nat → Option (List Nat)) {σ : Type} (dec : HSDecoder σ)
    (mk : Nat → Nat → Nat → σ) (fuel : Nat)
    (version : Nat) (kind : BlockKind) (compression : CompressionAlgorithm)
    (encoding : Encoding) (extra payload frame : List Nat)
    (hver : version < 2 ^ 32)
    (henc : encodingValid kind encoding = true)
    (hextra : extra.length = if kind = BlockKind.thumbnail then 4 else 0)
    (hplen : payload.length < 2 ^ 32)
    (hser : serialise_block Cd Cs kind compression encoding .crc32 extra payload =
      .ok frame)
    (hdef : compression = .deflate →
      (Cd payload).length < 2 ^ 32 ∧ zlib (Cd payload) = some payload)
    (hhs11 : compression = .heatshrink11_4 → ∀ comp, Cs 11 4 payload = .ok comp →
      comp.length < 2 ^ 32 ∧
      unshrink dec (mk (comp.length % 2 ^ 16) 11 4) comp payload.length fuel =
        some (.ok payload))
    (hhs12 : compression = .heatshrink12_4 → ∀ comp, Cs 12 4 payload = .ok comp →
      comp.length < 2 ^ 32 ∧
      unshrink dec (mk (comp.length % 2 ^ 16) 12 4) comp payload.length fuel =
        some (.ok payload)) :
    ∃ b : DeserialisedBlock,
      (Deserialiser.default.digest
          (serialise_file_header version .crc32 ++ frame)).deserialise =
        (.ok (.fileHeader { magic := MAGIC, version := version, checksum := .crc32 }),
         Deserialiser.mk frame .block .crc32) ∧
      (Deserialiser.mk frame .block .crc32).deserialise =
        (.ok (.block b), Deserialiser.mk [] .block .crc32) ∧
      b.kind = kind ∧ b.compression = compression ∧ b.encoding = encoding ∧
      b.parameters = encoding.to_le_bytes ++ extra ∧
      b.data_uncompressed_len = payload.length ∧
      b.decompress zlib dec mk fuel = some (.ok payload) := by
  have hheader :
      (Deserialiser.default.digest
          (serialise_file_header version .crc32 ++ frame)).deserialise =
        (.ok (.fileHeader { magic := MAGIC, version := version, checksum := .crc32 }),
         Deserialiser.mk frame .block .crc32) := by
    have := parse_serialised_header
      (Deserialiser.default.digest (serialise_file_header version .crc32 ++ frame))
      version .crc32 frame rfl hver (by simp [Deserialiser.default, Deserialiser.digest])
    exact this
  have hblockstep : (Deserialiser.mk frame .block .crc32).deserialise =
      (Deserialiser.mk frame .block .crc32).deserialise_block := rfl
  cases hcc : compression with
  | none =>
    rw [hcc] at hser
    rw [serialise_block_shape_none] at hser
    simp only [if_pos rfl] at hser
    have hframe := (Except.ok.inj hser).symm
    refine ⟨⟨kind, Option.none, payload.length, .none, encoding,
      Encoding.to_le_bytes encoding ++ extra, payload⟩, hheader, ?_, rfl, rfl, rfl, rfl, rfl, ?_⟩
    · rw [hblockstep]
      exact parse_frame_uncompressed (Deserialiser.mk frame .block .crc32) kind encoding
        extra payload _ rfl henc hextra hplen rfl hframe
    · rfl
  | deflate =>
    rw [hcc] at hser
    rw [serialise_block_shape_deflate] at hser
    simp only [if_pos rfl] at hser
    have hframe := (Except.ok.inj hser).symm
    obtain ⟨hclen, hinv⟩ := hdef hcc
    refine ⟨⟨kind, some (Cd payload).length, payload.length, .deflate, encoding,
      Encoding.to_le_bytes encoding ++ extra, Cd payload⟩, hheader, ?_, rfl, rfl, rfl, rfl, rfl, ?_⟩
    · rw [hblockstep]
      exact parse_frame_compressed (Deserialiser.mk frame .block .crc32) kind .deflate
        encoding extra payload (Cd payload) _ rfl (by decide) henc hextra hplen hclen
        rfl hframe
    · unfold DeserialisedBlock.decompress
      dsimp only
      rw [hinv]
  | heatshrink11_4 =>
    rw [hcc] at hser
    rcases hx : Cs 11 4 payload with e | comp
    · exfalso
      unfold serialise_block at hser
      rw [hx] at hser
      dsimp only at hser
      cases hser
    obtain ⟨hclen, hinv⟩ := hhs11 hcc comp hx
    rw [serialise_block_shape_hs Cd Cs kind .heatshrink11_4 encoding .crc32 extra
      payload comp 11 4 (Or.inl ⟨rfl, rfl, rfl⟩) hx] at hser
    simp only [if_pos rfl] at hser
    have hframe := (Except.ok.inj hser).symm
    refine ⟨⟨kind, some comp.length, payload.length, .heatshrink11_4, encoding,
      Encoding.to_le_bytes encoding ++ extra, comp⟩, hheader, ?_, rfl, rfl, rfl, rfl, rfl, ?_⟩
    · rw [hblockstep]
      exact parse_frame_compressed (Deserialiser.mk frame .block .crc32) kind
        .heatshrink11_4 encoding extra payload comp _ rfl (by decide) henc hextra
        hplen hclen rfl hframe
    · unfold DeserialisedBlock.decompress
      dsimp only
      exact hinv
  | heatshrink12_4 =>
    rw [hcc] at hser
    rcases hx : Cs 12 4 payload with e | comp
    · exfalso
      unfold serialise_block at hser
      rw [hx] at hser
      dsimp only at hser
      cases hser
    obtain ⟨hclen, hinv⟩ := hhs12 hcc comp hx
    rw [serialise_block_shape_hs Cd Cs kind .heatshrink12_4 encoding .crc32 extra
      payload comp 12 4 (Or.inr ⟨rfl, rfl, rfl⟩) hx] at hser
    simp only [if_pos rfl] at hser
    have hframe := (Except.ok.inj hser).symm
    refine ⟨⟨kind, some comp.length, payload.length, .heatshrink12_4, encoding,
      Encoding.to_le_bytes encoding ++ extra, comp⟩, hheader, ?_, rfl, rfl, rfl, rfl, rfl, ?_⟩
    · rw [hblockstep]
      exact parse_frame_compressed (Deserialiser.mk frame .block .crc32) kind
        .heatshrink12_4 encoding extra payload comp _ rfl (by decide) henc hextra
        hplen hclen rfl hframe
    · unfold DeserialisedBlock.decompress
      dsimp only
      exact hinv

set_option maxRecDepth 8192 in
theorem C1_serialise_deserialise_roundtrip_witness :
    serialise_block (fun l => l) (fun _ _ l => .ok l) .gcode .none .ascii .crc32 []
        [77, 55, 51, 32, 80, 48, 32, 82, 51, 48] = .ok sampleGcodeFrame ∧
    (∃ b : DeserialisedBlock,
      (Deserialiser.default.digest
          (serialise_file_header 1 .crc32 ++ sampleGcodeFrame)).deserialise =
        (.ok (.fileHeader { magic := MAGIC, version := 1, checksum := .crc32 }),
         Deserialiser.mk sampleGcodeFrame .block .crc32) ∧
      (Deserialiser.mk sampleGcodeFrame .block .crc32).deserialise =
        (.ok (.block b), Deserialiser.mk [] .block .crc32) ∧
      b.kind = .gcode ∧ b.compression = .none ∧ b.encoding = .ascii ∧
      b.parameters = Encoding.to_le_bytes .ascii ++ [] ∧
      b.data_uncompressed_len = [77, 55, 51, 32, 80, 48, 32, 82, 51, 48].length ∧
      b.decompress (fun _ => Option.none) oneByteDecoder (fun _ _ _ => 0) 0 =
        some (.ok [77, 55, 51, 32, 80, 48, 32, 82, 51, 48])) :=
  ⟨by decide,
   C1_serialise_deserialise_roundtrip (fun l => l) (fun _ _ l => .ok l)
     (fun _ => Option.none) oneByteDecoder (fun _ _ _ => 0) 0
     1 .gcode .none .ascii [] [77, 55, 51, 32, 80, 48, 32, 82, 51, 48]
     sampleGcodeFrame (by decide) (by decide) (by decide) (by decide) (by decide)
     (fun h => absurd h (by decide))
     (fun h => absurd h (by decide))
     (fun h => absurd h (by decide))⟩

/-- C3: feeding a byte stream in two chunks is equivalent to feeding it
whole: if digesting `s1` and draining yields events `E1` and leaves the
deserialiser `d1` asking for more bytes, and digesting `s2` into `d1` and
draining yields events `E2`, final request `n2` and state `d2`, then
digesting `s1 ++ s2` in one call and draining yields exactly the events
`E1 ++ E2` with the same final request `n2` and the same final state `d2`. -/
theorem C3_chunk_independence (d : Deserialiser) (s1 s2 : List Nat)
    (f1 f2 : Nat) (E1 : List Event) (n1 : Nat) (d1 : Deserialiser)
    (E2 : List Event) (n2 : Nat) (d2 : Deserialiser)
    (h1 : drainFuel f1 (d.digest s1) = some (.ok (E1, n1, d1)))
    (h2 : drainFuel f2 (d1.digest s2) = some (.ok (E2, n2, d2))) :
    drainFuel (f1 + f2) (d.digest (s1 ++ s2)) = some (.ok (E1 ++ E2, n2, d2)) := by
  rw [← digest_digest]
  exact drainFuel_digest f1 (d.digest s1) E1 n1 d1 h1 f2 s2 E2 n2 d2 h2

set_option maxRecDepth 8192 in
theorem C3_chunk_independence_witness :
    drainFuel 1 (Deserialiser.default.digest [71, 67, 68, 69, 1]) =
      some (.ok ([], 5, Deserialiser.mk [71, 67, 68, 69, 1] .fileHeader .none)) ∧
    drainFuel 3 ((Deserialiser.mk [71, 67, 68, 69, 1] .fileHeader .none).digest
        ([0, 0, 0, 1, 0] ++ sampleGcodeFrame)) =
      some (.ok
        ([Event.fileHeader ⟨MAGIC, 1, Checksum.crc32⟩,
          Event.block ⟨BlockKind.gcode, Option.none, 10, CompressionAlgorithm.none,
            Encoding.ascii, [0, 0], [77, 55, 51, 32, 80, 48, 32, 82, 51, 48]⟩],
         12, Deserialiser.mk [] .block .crc32)) ∧
    drainFuel (1 + 3) (Deserialiser.default.digest
        ([71, 67, 68, 69, 1] ++ ([0, 0, 0, 1, 0] ++ sampleGcodeFrame))) =
      some (.ok
        ([] ++ [Event.fileHeader ⟨MAGIC, 1, Checksum.crc32⟩,
          Event.block ⟨BlockKind.gcode, Option.none, 10, CompressionAlgorithm.none,
            Encoding.ascii, [0, 0], [77, 55, 51, 32, 80, 48, 32, 82, 51, 48]⟩],
         12, Deserialiser.mk [] .block .crc32)) :=
  ⟨by rfl, by rfl,
   C3_chunk_independence Deserialiser.default [71, 67, 68, 69, 1]
     ([0, 0, 0, 1, 0] ++ sampleGcodeFrame) 1 3 [] 5
     (Deserialiser.mk [71, 67, 68, 69, 1] .fileHeader .none)
     [Event.fileHeader ⟨MAGIC, 1, Checksum.crc32⟩,
      Event.block ⟨BlockKind.gcode, Option.none, 10, CompressionAlgorithm.none,
        Encoding.ascii, [0, 0], [77, 55, 51, 32, 80, 48, 32, 82, 51, 48]⟩]
     12 (Deserialiser.mk [] .block .crc32) (by rfl) (by rfl)⟩

set_option maxRecDepth 8192 in
/-- C6 (counterexample to the unamended claim): the original claim says a
single byte flip anywhere in a Crc32-framed block yields InvalidChecksum or
a framing error, never a successfully emitted block.  Here an uncompressed
FileMetadata/Ini block of uncompressed size 8 is serialised with Crc32; its
payload starts with the CRC32 of ten zero bytes.  Flipping the single size
byte at offset 4 from 8 to 0 re-frames the buffer as a shorter block whose
CRC field now falls inside the old payload and happens to verify, so the
deserialiser successfully emits a (different) block. -/
theorem C6_counterexample_single_flip :
    serialise_block (fun l => l) (fun _ _ l => .ok l) .fileMetadata .none .ini .crc32 []
        c6Payload = .ok c6Frame ∧
    c6Frame.getD 4 0 = 8 ∧
    (Deserialiser.mk (c6Frame.set 4 0) DeserialiserState.block Checksum.crc32).deserialise =
      (.ok (.block ⟨BlockKind.fileMetadata, Option.none, 0, CompressionAlgorithm.none,
          Encoding.ini, [0, 0], []⟩),
       Deserialiser.mk ([0, 0, 0, 0] ++ u32toLe (crc32 c6Blk)) DeserialiserState.block
         Checksum.crc32) :=
  ⟨by decide, by decide, by decide⟩

/-- C6 (amended): for a complete Crc32-framed block that the deserialiser
accepts, flipping a single byte at any offset at or beyond the parameter
area (offset 8 for uncompressed blocks, 12 for compressed ones - i.e. any
byte of the parameters, the payload or the CRC itself) makes `deserialise`
return InvalidChecksum with the deserialiser unchanged.  Flips inside the
first 8 (resp. 12) header bytes may instead yield framing errors,
MoreBytesRequired, or - as the counterexample shows - a successfully
re-framed block. -/
theorem C6_flip_after_size_fields_invalid_checksum
    (d : Deserialiser) (b : DeserialisedBlock) (d' : Deserialiser) (p v : Nat)
    (hst : d.state = DeserialiserState.block)
    (hcs : d.checksum = Checksum.crc32)
    (hbytes : isBytes d.inner)
    (hv : v < 256)
    (h : d.deserialise = (.ok (.block b), d'))
    (hfull : d'.inner = [])
    (hp : b.data_compressed_len.elim (8 : Nat) (fun _ => 12) ≤ p)
    (hplen : p < d.inner.length)
    (hne : v ≠ d.inner.getD p 0) :
    (Deserialiser.mk (d.inner.set p v) DeserialiserState.block
        Checksum.crc32).deserialise =
      (.error (.invalidChecksum
          (leNat (slice (d.inner.set p v) (d.inner.length - 4) d.inner.length))
          (crc32 ((d.inner.set p v).take (d.inner.length - 4)))),
       Deserialiser.mk (d.inner.set p v) DeserialiserState.block Checksum.crc32) ∧
    leNat (slice (d.inner.set p v) (d.inner.length - 4) d.inner.length) ≠
      crc32 ((d.inner.set p v).take (d.inner.length - 4)) := by
  have hblock : d.deserialise_block = (.ok (.block b), d') := by
    have hstep : d.deserialise = d.deserialise_block := by
      unfold Deserialiser.deserialise
      rw [hst]
    rw [← hstep]
    exact h
  obtain ⟨PL, BL, PS, h12, hk, hc, hdul, hdcl, hpl, hbl, hps, hlen, hck, henc,
    hparams, hdata, hd'⟩ := deserialise_block_ok_inv d b d' hblock
  have hdrop : d.inner.drop BL = [] := by
    rw [hd'] at hfull
    exact hfull
  have hBL : BL = d.inner.length := by
    have := List.drop_eq_nil_iff.mp hdrop
    omega
  subst hBL
  have hPS8 : 8 ≤ PS := by
    cases hx : b.data_compressed_len <;> rw [hx] at hps <;>
      simp only [Option.elim] at hps <;> omega
  have hpPS : PS ≤ p := by
    rw [hps] at hp
    exact hp
  have hmain : leNat (slice (d.inner.set p v) (d.inner.length - 4) d.inner.length) ≠
      crc32 ((d.inner.set p v).take (d.inner.length - 4)) := by
    by_cases hcase : p < d.inner.length - 4
    · have hsl : slice (d.inner.set p v) (d.inner.length - 4) d.inner.length =
          slice d.inner (d.inner.length - 4) d.inner.length :=
        slice_set_of_lt d.inner p v (d.inner.length - 4) d.inner.length hcase
      have htk : (d.inner.set p v).take (d.inner.length - 4) =
          (d.inner.take (d.inner.length - 4)).set p v :=
        take_set_comm d.inner p v (d.inner.length - 4) hcase (by omega)
      have hTlen : (d.inner.take (d.inner.length - 4)).length = d.inner.length - 4 := by
        rw [List.length_take]
        omega
      have hdec : d.inner.take (d.inner.length - 4) =
          (d.inner.take (d.inner.length - 4)).take p ++
            (d.inner.take (d.inner.length - 4)).getD p 0 ::
              (d.inner.take (d.inner.length - 4)).drop (p + 1) :=
        getD_cons_decomp _ p (by omega)
      have hsetdec : (d.inner.take (d.inner.length - 4)).set p v =
          (d.inner.take (d.inner.length - 4)).take p ++ v ::
            (d.inner.take (d.inner.length - 4)).drop (p + 1) := by
        rw [List.set_eq_take_append_cons_drop, if_pos (by omega)]
      have hgd : (d.inner.take (d.inner.length - 4)).getD p 0 = d.inner.getD p 0 :=
        getD_take d.inner (d.inner.length - 4) p hcase
      have hbyte_old : d.inner.getD p 0 < 256 := by
        have hmem : d.inner.getD p 0 ∈ d.inner := by
          rw [List.getD_eq_getElem?_getD, List.getElem?_eq_getElem hplen]
          exact List.getElem_mem hplen
        exact hbytes _ hmem
      have hflip := crc32_flip_ne
        ((d.inner.take (d.inner.length - 4)).take p)
        ((d.inner.take (d.inner.length - 4)).drop (p + 1))
        ((d.inner.take (d.inner.length - 4)).getD p 0) v
        (fun x hx => hbytes x (List.take_subset _ _ (List.take_subset _ _ hx)))
        (fun x hx => hbytes x (List.take_subset _ _ (List.drop_subset _ _ hx)))
        (by rw [hgd]; exact hbyte_old) hv
        (by rw [hgd]; exact Ne.symm hne)
      rw [hsl, htk, hsetdec, hck hcs]
      have hcongr : crc32 (d.inner.take (d.inner.length - 4)) =
          crc32 ((d.inner.take (d.inner.length - 4)).take p ++
            (d.inner.take (d.inner.length - 4)).getD p 0 ::
              (d.inner.take (d.inner.length - 4)).drop (p + 1)) :=
        congrArg crc32 hdec
      rw [hcongr]
      exact hflip
    · have hge : d.inner.length - 4 ≤ p := by omega
      have htk : (d.inner.set p v).take (d.inner.length - 4) =
          d.inner.take (d.inner.length - 4) :=
        take_set_of_le d.inner p v (d.inner.length - 4) hge
      have hsl : slice (d.inner.set p v) (d.inner.length - 4) d.inner.length =
          (slice d.inner (d.inner.length - 4) d.inner.length).set
            (p - (d.inner.length - 4)) v :=
        slice_set_inside d.inner p v (d.inner.length - 4) d.inner.length hge
          (by omega) (by omega)
      have hslen : (slice d.inner (d.inner.length - 4) d.inner.length).length = 4 := by
        rw [slice_length _ _ _ (by omega)]
        omega
      have hgd : (slice d.inner (d.inner.length - 4) d.inner.length).getD
          (p - (d.inner.length - 4)) 0 = d.inner.getD p 0 := by
        rw [slice_getD d.inner (d.inner.length - 4) d.inner.length
          (p - (d.inner.length - 4)) (by omega)]
        rw [show d.inner.length - 4 + (p - (d.inner.length - 4)) = p from by omega]
      have hlne := leNat_set_ne (slice d.inner (d.inner.length - 4) d.inner.length)
        (p - (d.inner.length - 4)) v (by rw [hslen]; omega)
        (by rw [hgd]; exact hne)
      rw [hsl, htk, ← hck hcs]
      exact hlne
  have hcrcres := deserialise_block_crc_err
    (Deserialiser.mk (d.inner.set p v) DeserialiserState.block Checksum.crc32)
    b.kind b.compression b.data_uncompressed_len b.data_compressed_len PL
    d.inner.length
    (by show ¬ (d.inner.set p v).length < 12
        rw [List.length_set]
        exact h12)
    (by show BlockKind.from_le_bytes (slice (d.inner.set p v) 0 2) = .ok b.kind
        rw [slice_set_of_le d.inner p v 0 2 (by omega)]
        exact hk)
    (by show CompressionAlgorithm.from_le_bytes (slice (d.inner.set p v) 2 4) =
          .ok b.compression
        rw [slice_set_of_le d.inner p v 2 4 (by omega)]
        exact hc)
    (by show leNat (slice (d.inner.set p v) 4 8) = b.data_uncompressed_len
        rw [slice_set_of_le d.inner p v 4 8 (by omega)]
        exact hdul)
    (by show (if b.compression = CompressionAlgorithm.none then Except.ok Option.none
          else Except.ok (Option.some (leNat (slice (d.inner.set p v) 8 12)))) =
          (Except.ok b.data_compressed_len : Except BinaryGcodeError (Option Nat))
        by_cases hcn : b.compression = CompressionAlgorithm.none
        · rw [if_pos hcn]
          rw [if_pos hcn] at hdcl
          exact hdcl
        · rw [if_neg hcn]
          rw [if_neg hcn] at hdcl
          have hdcl2 := Except.ok.inj hdcl
          have hPS12 : PS = 12 := by
            rw [← hps, ← hdcl2]
            rfl
          rw [slice_set_of_le d.inner p v 8 12 (by omega)]
          exact hdcl)
    hpl
    (by show b.data_compressed_len.elim (8 + PL + b.data_uncompressed_len)
          (fun cl => 12 + PL + cl) +
          (if (Checksum.crc32 : Checksum) = Checksum.crc32 then 4 else 0) =
          d.inner.length
        rw [hcs] at hbl
        exact hbl)
    (by show ¬ (d.inner.set p v).length < d.inner.length
        rw [List.length_set]
        omega)
    rfl
    hmain
  have hstep2 : (Deserialiser.mk (d.inner.set p v) DeserialiserState.block
      Checksum.crc32).deserialise =
      (Deserialiser.mk (d.inner.set p v) DeserialiserState.block
        Checksum.crc32).deserialise_block := rfl
  exact ⟨hstep2.trans hcrcres, hmain⟩

set_option maxRecDepth 8192 in
theorem C6_flip_after_size_fields_invalid_checksum_witness :
    (Deserialiser.mk sampleGcodeFrame DeserialiserState.block Checksum.crc32).deserialise =
      (.ok (.block ⟨BlockKind.gcode, Option.none, 10, CompressionAlgorithm.none,
          Encoding.ascii, [0, 0], [77, 55, 51, 32, 80, 48, 32, 82, 51, 48]⟩),
       Deserialiser.mk [] DeserialiserState.block Checksum.crc32) ∧
    isBytes sampleGcodeFrame ∧
    ((Deserialiser.mk (sampleGcodeFrame.set 10 0) DeserialiserState.block
        Checksum.crc32).deserialise =
      (.error (.invalidChecksum
          (leNat (slice (sampleGcodeFrame.set 10 0) (sampleGcodeFrame.length - 4)
            sampleGcodeFrame.length))
          (crc32 ((sampleGcodeFrame.set 10 0).take (sampleGcodeFrame.length - 4)))),
       Deserialiser.mk (sampleGcodeFrame.set 10 0) DeserialiserState.block
         Checksum.crc32) ∧
     leNat (slice (sampleGcodeFrame.set 10 0) (sampleGcodeFrame.length - 4)
        sampleGcodeFrame.length) ≠
       crc32 ((sampleGcodeFrame.set 10 0).take (sampleGcodeFrame.length - 4))) :=
  ⟨by rfl, by decide,
   C6_flip_after_size_fields_invalid_checksum
     (Deserialiser.mk sampleGcodeFrame DeserialiserState.block Checksum.crc32)
     ⟨BlockKind.gcode, Option.none, 10, CompressionAlgorithm.none,
       Encoding.ascii, [0, 0], [77, 55, 51, 32, 80, 48, 32, 82, 51, 48]⟩
     (Deserialiser.mk [] DeserialiserState.block Checksum.crc32) 10 0
     rfl rfl (by decide) (by decide) (by rfl) (by rfl) (by decide) (by decide)
     (by decide)⟩

/-- C7: for every `BlockKind` value `k`, `to_le_bytes k` is the little-endian
two-byte encoding of its numeric code (FileMetadata=0, GCode=1,
SlicerMetadata=2, PrinterMetadata=3, PrintMetadata=4, Thumbnail=5) and
`from_le_bytes (to_le_bytes k) = Ok k`. -/
theorem C7_blockKind_le_roundtrip :
    ∀ k : BlockKind, BlockKind.to_le_bytes k = u16toLe k.code ∧
      BlockKind.from_le_bytes (BlockKind.to_le_bytes k) = .ok k := by
  intro k
  cases k <;> exact ⟨rfl, rfl⟩

/-- C8: for every byte buffer, the table-driven `crc32` equals the reference
reflected CRC-32/ISO-HDLC computed bit-at-a-time with polynomial
`0xEDB88320`, initial value `0xFFFFFFFF` and final XOR `0xFFFFFFFF`. -/
theorem C8_crc32_refines_reference (buf : List Nat) (hb : isBytes buf) :
    crc32 buf = crc32_ref buf :=
  crc32_eq_ref buf hb

theorem C8_crc32_refines_reference_witness :
    isBytes [71, 67, 68, 69, 255, 0] ∧
      crc32 [71, 67, 68, 69, 255, 0] = crc32_ref [71, 67, 68, 69, 255, 0] :=
  ⟨by decide, C8_crc32_refines_reference [71, 67, 68, 69, 255, 0] (by decide)⟩

/-- C9: whenever `deserialise` returns an error, the pending buffer, the
parser mode and the stored checksum kind are exactly what they were before
the call. -/
theorem C9_error_preserves_state (d : Deserialiser) (e : BinaryGcodeError)
    (d2 : Deserialiser) (h : d.deserialise = (.error e, d2)) :
    d2.inner = d.inner ∧ d2.state = d.state ∧ d2.checksum = d.checksum := by
  rw [deserialise_error_id d e d2 h]
  exact ⟨rfl, rfl, rfl⟩

theorem C9_error_preserves_state_witness :
    (Deserialiser.mk [72, 67, 68, 69, 1, 0, 0, 0, 1, 0]
        DeserialiserState.fileHeader Checksum.none).deserialise =
      (.error .invalidMagic,
       Deserialiser.mk [72, 67, 68, 69, 1, 0, 0, 0, 1, 0]
         DeserialiserState.fileHeader Checksum.none) ∧
    ((Deserialiser.mk [72, 67, 68, 69, 1, 0, 0, 0, 1, 0]
        DeserialiserState.fileHeader Checksum.none).inner =
      [72, 67, 68, 69, 1, 0, 0, 0, 1, 0] ∧
     (Deserialiser.mk [72, 67, 68, 69, 1, 0, 0, 0, 1, 0]
        DeserialiserState.fileHeader Checksum.none).state =
      DeserialiserState.fileHeader ∧
     (Deserialiser.mk [72, 67, 68, 69, 1, 0, 0, 0, 1, 0]
        DeserialiserState.fileHeader Checksum.none).checksum = Checksum.none) :=
  ⟨by rfl,
   C9_error_preserves_state
     (Deserialiser.mk [72, 67, 68, 69, 1, 0, 0, 0, 1, 0]
       DeserialiserState.fileHeader Checksum.none)
     BinaryGcodeError.invalidMagic
     (Deserialiser.mk [72, 67, 68, 69, 1, 0, 0, 0, 1, 0]
       DeserialiserState.fileHeader Checksum.none)
     (by rfl)⟩

/-- C2 (code-bug evaluation): with file checksum `None`, the S4 scenario —
an uncompressed `FileMetadata`/`Ini` block whose payload is the 17 bytes of
`"; generated by X\n"` — is parsed into a block whose `data` field holds
only the first 13 payload bytes: the source always slices the data up to
`block_len - 4`, so with no trailing CRC the last four payload bytes are
cut off, contradicting the claimed round trip. -/
theorem C2_checksum_none_truncates_payload :
    (Deserialiser.default.digest
        ([71, 67, 68, 69, 1, 0, 0, 0, 0, 0] ++
          ([0, 0, 0, 0, 17, 0, 0, 0, 0, 0] ++
            [59, 32, 103, 101, 110, 101, 114, 97, 116, 101, 100, 32, 98, 121, 32, 88, 10]))).deserialise.1 =
      .ok (.fileHeader { magic := MAGIC, version := 1, checksum := Checksum.none }) ∧
    (Deserialiser.default.digest
        ([71, 67, 68, 69, 1, 0, 0, 0, 0, 0] ++
          ([0, 0, 0, 0, 17, 0, 0, 0, 0, 0] ++
            [59, 32, 103, 101, 110, 101, 114, 97, 116, 101, 100, 32, 98, 121, 32, 88, 10]))).deserialise.2.deserialise =
      (.ok (.block
        { kind := .fileMetadata,
          data_compressed_len := Option.none,
          data_uncompressed_len := 17,
          compression := .none,
          encoding := .ini,
          parameters := [0, 0],
          data := [59, 32, 103, 101, 110, 101, 114, 97, 116, 101, 100, 32, 98] }),
       { inner := [], state := .block, checksum := .none }) ∧
    [59, 32, 103, 101, 110, 101, 114, 97, 116, 101, 100, 32, 98].length = 13 := by
  exact ⟨by rfl, by rfl, rfl⟩

/-- C10: with file checksum `None`, an uncompressed non-Thumbnail block with
a payload shorter than 2 bytes serialises to a complete frame of
`10 + payload.length < 12` bytes, and a deserialiser holding exactly that
frame answers `MoreBytesRequired (12 - frame.length)` instead of emitting
the block. -/
theorem C10_short_uncompressed_frame_never_emitted
    (Cd : List Nat → List Nat)
    (Cs : Nat → Nat → List Nat → Except BinaryGcodeError (List Nat))
    (kind : BlockKind) (encoding : Encoding) (payload frame : List Nat)
    (hkind : kind ≠ BlockKind.thumbnail) (hp : payload.length < 2)
    (hser : serialise_block Cd Cs kind .none encoding .none [] payload = .ok frame) :
    frame.length = 10 + payload.length ∧ frame.length < 12 ∧
    (Deserialiser.mk frame .block .none).deserialise =
      (.ok (.moreBytesRequired (12 - frame.length)),
       Deserialiser.mk frame .block .none) := by
  rw [serialise_block_shape_none] at hser
  simp only [if_neg (by decide : ¬ Checksum.none = Checksum.crc32)] at hser
  have hframe : frame = BlockKind.to_le_bytes kind ++
      CompressionAlgorithm.to_le_bytes .none ++ u32toLe payload.length ++
      (Encoding.to_le_bytes encoding ++ []) ++ payload := by
    exact (Except.ok.inj hser).symm
  have hlen : frame.length = 10 + payload.length := by
    subst hframe
    simp [List.length_append, blockKind_to_le_length, compression_to_le_length,
      encoding_to_le_length, u32toLe_length]
    omega
  refine ⟨hlen, by omega, ?_⟩
  show (Deserialiser.mk frame .block .none).deserialise_block = _
  rw [deserialise_block_more12 _ (by simp only [hlen]; omega)]

theorem C10_short_uncompressed_frame_never_emitted_witness :
    BlockKind.fileMetadata ≠ BlockKind.thumbnail ∧
    ([59] : List Nat).length < 2 ∧
    serialise_block (fun l => l) (fun _ _ l => .ok l) .fileMetadata .none .ini .none
      [] [59] = .ok [0, 0, 0, 0, 1, 0, 0, 0, 0, 0, 59] ∧
    (([0, 0, 0, 0, 1, 0, 0, 0, 0, 0, 59] : List Nat).length = 10 + ([59] : List Nat).length ∧
     ([0, 0, 0, 0, 1, 0, 0, 0, 0, 0, 59] : List Nat).length < 12 ∧
     (Deserialiser.mk [0, 0, 0, 0, 1, 0, 0, 0, 0, 0, 59] .block .none).deserialise =
       (.ok (.moreBytesRequired (12 - ([0, 0, 0, 0, 1, 0, 0, 0, 0, 0, 59] : List Nat).length)),
        Deserialiser.mk [0, 0, 0, 0, 1, 0, 0, 0, 0, 0, 59] .block .none)) :=
  ⟨by decide, by decide, by rfl,
   C10_short_uncompressed_frame_never_emitted (fun l => l) (fun _ _ l => .ok l)
     .fileMetadata .ini [59] [0, 0, 0, 0, 1, 0, 0, 0, 0, 0, 59]
     (by decide) (by decide) (by rfl)⟩

/-! ### Heatshrink pump: buffer-length invariants (C5) -/

theorem hs_write_len (buf : List Nat) (polled : Nat) (out : List Nat)
    (h : polled ≤ buf.length) :
    (hs_write buf polled out).1.length = buf.length ∧
    polled ≤ (hs_write buf polled out).2 ∧
    (hs_write buf polled out).2 ≤ buf.length := by
  unfold hs_write
  dsimp only
  refine ⟨?_, ?_, ?_⟩
  · simp only [List.length_append, List.length_take, List.length_drop]
    omega
  · omega
  · simp only [List.length_take]
    omega

theorem unshrink_pollLoop_len {σ : Type} (dec : HSDecoder σ) : ∀ (fuel : Nat)
    (s : σ) (buf : List Nat) (polled : Nat) (s' : σ) (buf' : List Nat) (polled' : Nat),
    polled ≤ buf.length →
    unshrink_pollLoop dec fuel s buf polled = some (.ok (s', buf', polled')) →
    buf'.length = buf.length ∧ polled' ≤ buf'.length := by
  intro fuel
  induction fuel with
  | zero =>
    intro s buf polled s' buf' polled' hp h
    simp [unshrink_pollLoop] at h
  | succ n ih =>
    intro s buf polled s' buf' polled' hp h
    unfold unshrink_pollLoop at h
    rcases hres : dec.poll s (buf.length - polled) with ⟨res, snext⟩
    rw [hres] at h
    cases res with
    | empty out =>
      obtain ⟨hwa, hwb, hwc⟩ := hs_write_len buf polled out hp
      dsimp only at h
      by_cases hz : (hs_write buf polled out).2 = polled
      · rw [if_pos hz] at h
        simp only [Option.some.injEq, Except.ok.injEq, Prod.mk.injEq] at h
        obtain ⟨rfl, rfl, rfl⟩ := h
        exact ⟨hwa, by omega⟩
      · rw [if_neg hz] at h
        have := ih snext _ _ s' buf' polled' (by omega) h
        omega
    | more out =>
      obtain ⟨hwa, hwb, hwc⟩ := hs_write_len buf polled out hp
      dsimp only at h
      simp only [Option.some.injEq, Except.ok.injEq, Prod.mk.injEq] at h
      obtain ⟨rfl, rfl, rfl⟩ := h
      exact ⟨hwa, by omega⟩
    | errorNull => dsimp only at h; cases h
    | errorUnknown => dsimp only at h; cases h

theorem unshrink_sinkLoop_len {σ : Type} (dec : HSDecoder σ) (input : List Nat) :
    ∀ (fuel : Nat) (s : σ) (buf : List Nat) (polled sunk : Nat)
      (s' : σ) (buf' : List Nat) (polled' : Nat),
    polled ≤ buf.length →
    unshrink_sinkLoop dec input fuel s buf polled sunk = some (.ok (s', buf', polled')) →
    buf'.length = buf.length ∧ polled' ≤ buf'.length := by
  intro fuel
  induction fuel with
  | zero =>
    intro s buf polled sunk s' buf' polled' hp h
    simp [unshrink_sinkLoop] at h
  | succ n ih =>
    intro s buf polled sunk s' buf' polled' hp h
    unfold unshrink_sinkLoop at h
    by_cases hlt : sunk < input.length
    · rw [if_pos hlt] at h
      rcases hres : dec.sink s (input.drop sunk) with ⟨res, snext⟩
      rw [hres] at h
      cases res with
      | ok sz =>
        dsimp only at h
        rcases hpoll : unshrink_pollLoop dec n snext buf polled with _ | pr
        · rw [hpoll] at h; cases h
        · rw [hpoll] at h
          cases pr with
          | error e => dsimp only at h; cases h
          | ok trip =>
            rcases trip with ⟨s2, buf2, polled2⟩
            dsimp only at h
            obtain ⟨hb2, hp2⟩ := unshrink_pollLoop_len dec n snext buf polled s2 buf2 polled2 hp hpoll
            have := ih s2 buf2 polled2 (sunk + sz) s' buf' polled' hp2 h
            omega
      | full => dsimp only at h; cases h
      | errorNull => dsimp only at h; cases h
    · rw [if_neg hlt] at h
      simp only [Option.some.injEq, Except.ok.injEq, Prod.mk.injEq] at h
      obtain ⟨rfl, rfl, rfl⟩ := h
      exact ⟨rfl, hp⟩

theorem unshrink_finishLoop_len {σ : Type} (dec : HSDecoder σ) :
    ∀ (fuel : Nat) (s : σ) (buf : List Nat) (polled : Nat)
      (buf' : List Nat) (polled' : Nat),
    polled ≤ buf.length →
    unshrink_finishLoop dec fuel s buf polled = some (.ok (buf', polled')) →
    buf'.length = buf.length := by
  intro fuel
  induction fuel with
  | zero =>
    intro s buf polled buf' polled' hp h
    simp [unshrink_finishLoop] at h
  | succ n ih =>
    intro s buf polled buf' polled' hp h
    unfold unshrink_finishLoop at h
    rcases hres : dec.finish s with ⟨res, snext⟩
    rw [hres] at h
    cases res with
    | done =>
      dsimp only at h
      simp only [Option.some.injEq, Except.ok.injEq, Prod.mk.injEq] at h
      obtain ⟨rfl, rfl⟩ := h
      rfl
    | more =>
      dsimp only at h
      rcases hpoll : dec.poll snext (buf.length - polled) with ⟨pres, s2⟩
      rw [hpoll] at h
      cases pres with
      | empty out =>
        obtain ⟨hwa, hwb, hwc⟩ := hs_write_len buf polled out hp
        dsimp only at h
        by_cases hz : (hs_write buf polled out).2 = polled
        · rw [if_pos hz] at h
          simp only [Option.some.injEq, Except.ok.injEq, Prod.mk.injEq] at h
          obtain ⟨rfl, rfl⟩ := h
          exact hwa
        · rw [if_neg hz] at h
          have := ih s2 _ _ buf' polled' (by omega) h
          omega
      | more out =>
        obtain ⟨hwa, hwb, hwc⟩ := hs_write_len buf polled out hp
        dsimp only at h
        have := ih s2 _ _ buf' polled' (by omega) h
        omega
      | errorUnknown => dsimp only at h; cases h
      | errorNull => dsimp only at h; cases h
    | errorNull => dsimp only at h; cases h

/-- A successful `unshrink` always returns exactly `uncompressed_len` bytes:
the output buffer is allocated at that size and returned whole. -/
theorem unshrink_ok_length {σ : Type} (dec : HSDecoder σ) (s0 : σ) (input : List Nat)
    (uncompressed_len fuel : Nat) (out : List Nat)
    (h : unshrink dec s0 input uncompressed_len fuel = some (.ok out)) :
    out.length = uncompressed_len := by
  unfold unshrink unshrinkAux at h
  rcases hsink : unshrink_sinkLoop dec input fuel s0
      (List.replicate uncompressed_len 0) 0 0 with _ | sr
  · rw [hsink] at h; cases h
  · rw [hsink] at h
    cases sr with
    | error e => dsimp only at h; cases h
    | ok trip =>
      rcases trip with ⟨s1, buf1, polled1⟩
      dsimp only at h
      obtain ⟨hb1, hp1⟩ := unshrink_sinkLoop_len dec input fuel s0 _ 0 0 s1 buf1 polled1
        (by simp) hsink
      rcases hfin : unshrink_finishLoop dec fuel s1 buf1 polled1 with _ | fr
      · rw [hfin] at h; cases h
      · rw [hfin] at h
        cases fr with
        | error e => dsimp only [Option.map, Except.map] at h; cases h
        | ok pair =>
          rcases pair with ⟨buf2, polled2⟩
          dsimp only [Option.map, Except.map] at h
          simp only [Option.some.injEq, Except.ok.injEq] at h
          subst h
          have := unshrink_finishLoop_len dec fuel s1 buf1 polled1 buf2 polled2 hp1 hfin
          rw [this, hb1, List.length_replicate]

/-- C5 (counterexample): a decompressor run that produces 1 byte when the
block's `uncompressed_size` is 2 does NOT yield a length-mismatch error:
`unshrink` pads the pre-allocated buffer with zeros and returns success.
`unshrinkAux` exposes the produced-byte count `polled = 1 ≠ 2`. -/
theorem C5_counterexample_no_length_check :
    unshrinkAux oneByteDecoder 0 [9] 2 8 = some (.ok ([7, 0], 1)) ∧
    unshrink oneByteDecoder 0 [9] 2 8 = some (.ok [7, 0]) ∧
    (1 : Nat) ≠ 2 := by
  exact ⟨by rfl, by rfl, by decide⟩

/-- C5 (amended): for Heatshrink blocks, a successful `decompress` always
returns exactly `data_uncompressed_len` bytes — not because the output is
checked, but because the output buffer is allocated at that size and
returned whole (zero-padded when the decoder produced fewer bytes); no
length-mismatch error exists. -/
theorem C5_heatshrink_decompress_length {σ : Type}
    (zlib : List Nat → Option (List Nat)) (dec : HSDecoder σ)
    (mk : Nat → Nat → Nat → σ) (fuel : Nat) (b : DeserialisedBlock)
    (out : List Nat)
    (hc : b.compression = .heatshrink11_4 ∨ b.compression = .heatshrink12_4)
    (h : b.decompress zlib dec mk fuel = some (.ok out)) :
    out.length = b.data_uncompressed_len := by
  unfold DeserialisedBlock.decompress at h
  rcases hc with hc | hc <;> rw [hc] at h <;> exact unshrink_ok_length _ _ _ _ _ _ h

theorem C5_heatshrink_decompress_length_witness :
    ((DeserialisedBlock.mk .gcode (some 1) 2 .heatshrink11_4 .ascii [0, 0] [9]).compression =
        CompressionAlgorithm.heatshrink11_4 ∨
     (DeserialisedBlock.mk .gcode (some 1) 2 .heatshrink11_4 .ascii [0, 0] [9]).compression =
        CompressionAlgorithm.heatshrink12_4) ∧
    (DeserialisedBlock.mk .gcode (some 1) 2 .heatshrink11_4 .ascii [0, 0] [9]).decompress
      (fun _ => Option.none) oneByteDecoder (fun _ _ _ => 0) 8 = some (.ok [7, 0]) ∧
    ([7, 0] : List Nat).length =
      (DeserialisedBlock.mk .gcode (some 1) 2 .heatshrink11_4 .ascii [0, 0] [9]).data_uncompressed_len :=
  ⟨Or.inl rfl, by rfl,
   C5_heatshrink_decompress_length (fun _ => Option.none) oneByteDecoder
     (fun _ _ _ => 0) 8 (DeserialisedBlock.mk .gcode (some 1) 2 .heatshrink11_4 .ascii [0, 0] [9])
     [7, 0] (Or.inl rfl) (by rfl)⟩

/-- C4: with stored checksum `Crc32` and a complete frame of `block_len`
bytes pending, `deserialise` compares `crc32 (pending[0 .. block_len-4])`
with the little-endian u32 at `pending[block_len-4 .. block_len]`; it
returns `Err (InvalidChecksum (stored, computed))` exactly when the two
differ, and on a match it proceeds to emit the block (for a valid
encoding). -/
theorem C4_crc_check_iff (d : Deserialiser)
    (kind : BlockKind) (compression : CompressionAlgorithm)
    (dul : Nat) (dcl : Option Nat) (param_len block_len param_start : Nat)
    (hst : d.state = .block)
    (hcrc : d.checksum = Checksum.crc32)
    (h12 : ¬ d.inner.length < 12)
    (hk : BlockKind.from_le_bytes (slice d.inner 0 2) = .ok kind)
    (hc : CompressionAlgorithm.from_le_bytes (slice d.inner 2 4) = .ok compression)
    (hdul : leNat (slice d.inner 4 8) = dul)
    (hdcl : (if compression = CompressionAlgorithm.none then Except.ok Option.none
             else Except.ok (Option.some (leNat (slice d.inner 8 12)))) =
      (Except.ok dcl : Except BinaryGcodeError (Option Nat)))
    (hpl : (if kind = BlockKind.thumbnail then (6 : Nat) else 2) = param_len)
    (hbl : dcl.elim (8 + param_len + dul) (fun cl => 12 + param_len + cl) + 4 = block_len)
    (hps : dcl.elim (8 : Nat) (fun _ => 12) = param_start)
    (hlen : ¬ d.inner.length < block_len) :
    ((d.deserialise).1 =
        .error (.invalidChecksum (leNat (slice d.inner (block_len - 4) block_len))
          (crc32 (d.inner.take (block_len - 4)))) ↔
      leNat (slice d.inner (block_len - 4) block_len) ≠
        crc32 (d.inner.take (block_len - 4))) ∧
    (∀ encoding,
      leNat (slice d.inner (block_len - 4) block_len) =
        crc32 (d.inner.take (block_len - 4)) →
      Encoding.from_le_bytes (slice d.inner param_start (param_start + 2)) kind =
        .ok encoding →
      d.deserialise =
        (.ok (.block
          { kind := kind,
            data_compressed_len := dcl,
            data_uncompressed_len := dul,
            compression := compression,
            encoding := encoding,
            parameters := slice d.inner param_start (param_start + param_len),
            data := slice d.inner (param_start + param_len) (block_len - 4) }),
         { d with inner := d.inner.drop block_len })) := by
  have hd : d.deserialise = d.deserialise_block := by
    unfold Deserialiser.deserialise
    rw [hst]
  have hbl' : dcl.elim (8 + param_len + dul) (fun cl => 12 + param_len + cl) +
      (if d.checksum = Checksum.crc32 then 4 else 0) = block_len := by
    rw [hcrc]
    simpa using hbl
  constructor
  · constructor
    · intro herr
      intro heq
      have hchecked := deserialise_block_checked d kind compression dul dcl param_len
        block_len param_start h12 hk hc hdul hdcl hpl hbl' hps hlen (fun _ => heq)
      rcases hres : Encoding.from_le_bytes
          (slice d.inner param_start (param_start + 2)) kind with e | enc
      · have := hchecked.1 e hres
        rw [hd, this] at herr
        simp only at herr
        have := encoding_from_le_err _ _ _ hres
        rw [this] at herr
        cases herr
      · have := hchecked.2 enc hres
        rw [hd, this] at herr
        cases herr
    · intro hne
      have := deserialise_block_crc_err d kind compression dul dcl param_len block_len
        h12 hk hc hdul hdcl hpl hbl' hlen hcrc hne
      rw [hd, this]
  · intro encoding heq henc
    have hchecked := deserialise_block_checked d kind compression dul dcl param_len
      block_len param_start h12 hk hc hdul hdcl hpl hbl' hps hlen (fun _ => heq)
    rw [hd]
    exact hchecked.2 encoding henc

theorem C4_crc_check_iff_witness :
    (¬ sampleCrcDeserialiser.inner.length < 12) ∧
    ((sampleCrcDeserialiser.deserialise).1 =
        .error (.invalidChecksum (leNat (slice sampleCrcDeserialiser.inner (15 - 4) 15))
          (crc32 (sampleCrcDeserialiser.inner.take (15 - 4)))) ↔
      leNat (slice sampleCrcDeserialiser.inner (15 - 4) 15) ≠
        crc32 (sampleCrcDeserialiser.inner.take (15 - 4))) :=
  ⟨by decide,
   (C4_crc_check_iff sampleCrcDeserialiser .fileMetadata .none 1 Option.none 2 15 8
     (by rfl) (by rfl) (by decide) (by decide) (by decide) (by decide) (by rfl)
     (by decide) (by rfl) (by rfl) (by decide)).1⟩

end BinaryGcode
